import Mathlib

/-!
# AudioAPI: the FMOD-backed audio manager

A shallow embedding of `src/Audio.h` and `src/AudioFMOD.cpp`.

* Heap objects (`AudioClipFMOD`, `AudioClipInstanceFMOD`) live in maps from addresses to
  objects; `new` receives the address the allocator hands out, `delete` runs the destructor
  and frees the address.
* The FMOD engine and the C runtime are external collaborators.  Every call made to the engine
  is appended to a trace, and every answer of the engine (result codes, handles, channel
  activity) is an input of the operation that asks for it.
* `float` is IEEE-754 binary32 (`Float32`): every operation is rounded to nearest, ties to
  even, with overflow to infinity, NaN and signed zero.
* A run that leaves defined behaviour (null or dangling dereference, indexing past an array,
  `erase(end())`) or that the C runtime ends (the invalid-parameter handler of `strncpy_s`)
  ends with a `Fault`.
-/

namespace AudioAPI

/-- Addresses of heap objects and handles of engine objects. -/
abbrev Ptr := Nat

/-- The ways a run can end other than by returning: undefined behaviour, the invalid-parameter
handler of the C runtime, and a loop of the embedding running out of budget. -/
inductive Fault where
  | nullDereference
  | outOfBounds
  | danglingPointer
  | eraseEnd
  | invalidParameter
  | loopBudget
deriving DecidableEq, Repr

/-- The C++ type `float`, IEEE-754 binary32.  A finite value other than -0 is the rational
number it stands for (+0 is `finite 0`).  Every operation is evaluated in binary32 under the
default rounding mode, as the source's compiler does with `float` operands. -/
inductive Float32 where
  | finite (value : ℚ)
  | negZero
  | inf (negative : Bool)
  | nan
deriving DecidableEq

namespace Float32

/-- The literal `0.0f`. -/
def zero : Float32 := finite 0

/-- The literal `1.0f`. -/
def one : Float32 := finite 1

/-- The number of binary digits of `n`; `budget` bounds the rounds and `n` itself is enough. -/
def bitLength : Nat → Nat → Nat
  | 0, _ => 0
  | budget + 1, n => if n = 0 then 0 else bitLength budget (n / 2) + 1

/-- The integer `k` with `2 ^ k ≤ n / d < 2 ^ (k + 1)`, for positive `n` and `d`. -/
def floorLog2 (n d : Nat) : Int :=
  let k : Int := (bitLength n n : Int) - (bitLength d d : Int)
  if d * 2 ^ k.toNat ≤ n * 2 ^ (-k).toNat then k else k - 1

/-- The integer nearest to `n / d`, the even one of the two on a tie. -/
def roundHalfEven (n d : Nat) : Nat :=
  let f := n / d
  let r := n % d
  if 2 * r < d then f else if d < 2 * r then f + 1 else if f % 2 = 0 then f else f + 1

/-- The binary32 magnitude nearest to `n / d`, for positive `n` and `d`: a 24-bit significand
times a power of two not below `2 ^ (-149)`; `none` when the rounded value reaches `2 ^ 128`
(overflow). -/
def roundMagnitude (n d : Nat) : Option ℚ :=
  let e : Int := max (floorLog2 n d - 23) (-149)
  let m := roundHalfEven (n * 2 ^ (-e).toNat) (d * 2 ^ e.toNat)
  if 2 ^ 128 * 2 ^ (-e).toNat ≤ m * 2 ^ e.toNat then none
  else some (((m * 2 ^ e.toNat : Nat) : ℚ) / ((2 ^ (-e).toNat : Nat) : ℚ))

/-- A zero with the given sign bit. -/
def signedZero (negative : Bool) : Float32 :=
  if negative then negZero else finite 0

/-- The binary32 value of the exact result `q` of an operation, rounded to nearest, ties to
even.  `zeroNegative` is the sign bit of the result when `q` is zero. -/
def round (zeroNegative : Bool) (q : ℚ) : Float32 :=
  if q = 0 then signedZero zeroNegative
  else
    match roundMagnitude q.num.natAbs q.den with
    | none => inf (decide (q < 0))
    | some m =>
      if m = 0 then signedZero (decide (q < 0))
      else finite (if q < 0 then -m else m)

/-- The value of a decimal literal `q` written with the suffix `f`. -/
def ofRat (q : ℚ) : Float32 := round false q

/-- The number a finite value stands for (0 for the others). -/
def toRat : Float32 → ℚ
  | finite v => v
  | _ => 0

/-- The sign bit. -/
def signBit : Float32 → Bool
  | finite v => decide (v < 0)
  | negZero => true
  | inf negative => negative
  | nan => false

/-- The operator `a - b` on `float`. -/
def sub : Float32 → Float32 → Float32
  | nan, _ => nan
  | _, nan => nan
  | inf na, inf nb => if na = nb then nan else inf na
  | inf na, _ => inf na
  | _, inf nb => inf (!nb)
  | a, b => round (a == negZero && b == finite 0) (a.toRat - b.toRat)

/-- The operator `a / b` on `float`. -/
def div : Float32 → Float32 → Float32
  | nan, _ => nan
  | _, nan => nan
  | inf _, inf _ => nan
  | inf na, b => inf (xor na b.signBit)
  | a, inf nb => signedZero (xor a.signBit nb)
  | a, b =>
    if b.toRat = 0 then
      if a.toRat = 0 then nan else inf (xor a.signBit b.signBit)
    else round (xor a.signBit b.signBit) (a.toRat / b.toRat)

/-- The operator `a < b` on `float`: false when either side is NaN. -/
def lt : Float32 → Float32 → Bool
  | nan, _ => false
  | _, nan => false
  | inf na, inf nb => na && !nb
  | inf na, _ => na
  | _, inf nb => !nb
  | a, b => decide (a.toRat < b.toRat)

/-- The operator `a <= b` on `float`: false when either side is NaN. -/
def le : Float32 → Float32 → Bool
  | nan, _ => false
  | _, nan => false
  | inf na, inf nb => na || !nb
  | inf na, _ => na
  | _, inf nb => !nb
  | a, b => decide (a.toRat ≤ b.toRat)

end Float32

/-- Vector type of the public interface (`Audio.h`). -/
structure Vector3 where
  x : Float32
  y : Float32
  z : Float32
deriving DecidableEq

/-- Vector type of the engine. -/
structure FMOD_VECTOR where
  x : Float32
  y : Float32
  z : Float32
deriving DecidableEq

/-- The fixed maximum attenuation distance, `gMaxDistance = 10000.0f`. -/
def gMaxDistance : Float32 := .finite 10000

namespace AudioLog

/-- Severity levels of `AudioLog`. -/
inductive Level where
  | Info
  | Warning
  | Error
deriving DecidableEq, Repr

end AudioLog

/-- The single variadic argument of a log call. -/
inductive LogArg where
  | none
  | int (i : Int)
  | str (s : String)
deriving DecidableEq

/-- One call of `AudioLog::print`: level, format string and its argument. -/
structure LogEntry where
  level : AudioLog.Level
  format : String
  arg : LogArg
deriving DecidableEq

namespace AudioClip

/-- Property bit `Looping = 1 << 0`. -/
def Looping : Nat := 1 <<< 0

/-- Property bit `Spatial = 1 << 1`. -/
def Spatial : Nat := 1 <<< 1

end AudioClip

/-- Mode bit of `fmod_common.h`. -/
def FMOD_LOOP_NORMAL : Nat := 0x2

/-- Mode bit of `fmod_common.h`. -/
def FMOD_2D : Nat := 0x8

/-- Mode bit of `fmod_common.h`. -/
def FMOD_3D : Nat := 0x10

/-- Calls made to the engine, with their arguments. -/
inductive EngineCall where
  | System_Create
  | getVersion
  | getDriverInfo
  | init
  | set3DSettings
  | createChannelGroup (index : Nat)
  | createSound (path : String) (flags : Nat)
  | Sound_release (sound : Ptr)
  | playSound (sound : Ptr) (channelGroup : Ptr) (paused : Bool)
  | Channel_set3DAttributes (channel : Ptr) (pos : FMOD_VECTOR) (vel : Option FMOD_VECTOR)
  | Channel_set3DMinMaxDistance (channel : Ptr) (minDistance : Float32) (maxDistance : Float32)
  | Channel_setPaused (channel : Ptr) (paused : Bool)
  | Channel_setVolume (channel : Ptr) (volume : Float32)
  | Channel_stop (channel : Ptr)
  | Channel_isPlaying (channel : Ptr)
  | ChannelGroup_setVolume (channelGroup : Ptr) (volume : Float32)
  | ChannelGroup_release (channelGroup : Ptr)
  | set3DListenerAttributes (listener : Nat) (pos : FMOD_VECTOR) (vel : FMOD_VECTOR)
      (forward : FMOD_VECTOR) (up : FMOD_VECTOR)
  | System_update
  | System_close
  | System_release
deriving DecidableEq

/-- Data members of `class AudioManagerFMOD` (the log reference is the `log` of the world). -/
structure AudioManagerFMOD where
  m_system : Option Ptr
  m_numGroups : Int
  m_channelGroups : Option (List Ptr)
  m_lastPosition : FMOD_VECTOR
  m_clips : List Ptr
  m_clipInstances : List Ptr
  m_systemManagedClipInstances : List Ptr

/-- Data members of `class AudioClipFMOD`. -/
structure AudioClipFMOD where
  m_sound : Ptr
  m_name : String
deriving DecidableEq

/-- Data members of `class AudioClipInstanceFMOD`. -/
structure AudioClipInstanceFMOD where
  m_clip : Ptr
  m_systemManaged : Bool
  m_channel : Option Ptr
  m_clipName : String
deriving DecidableEq

/-- The manager together with everything it touches: the clip and instance objects on the
heap, the log sink, the trace of engine calls and the caller's out-variables. -/
structure World where
  manager : AudioManagerFMOD
  clipObjects : Ptr → Option AudioClipFMOD
  instanceObjects : Ptr → Option AudioClipInstanceFMOD
  log : List LogEntry
  engine : List EngineCall
  callerSlots : Ptr → Option Ptr

/-- `m_log.print( level, format, arg )`. -/
def World.print (w : World) (level : AudioLog.Level) (format : String) (arg : LogArg) : World :=
  { w with log := w.log ++ [⟨level, format, arg⟩] }

/-- Record one call to the engine. -/
def World.call (w : World) (c : EngineCall) : World :=
  { w with engine := w.engine ++ [c] }

/-- The CRT routine as the source calls it, `strncpy_s( dest, src, _countof( dest ) )` with
a 256-byte `dest`.  A source shorter than 256 bytes is copied with its terminator.  A source
of 256 bytes or more does not fit: the routine empties `dest` and invokes the
invalid-parameter handler, which ends the process. -/
def strncpy_s (src : String) : Except Fault String :=
  if src.utf8ByteSize < 256 then .ok src else .error .invalidParameter

/-- Answers of the engine while the manager is constructed. -/
structure EngineStartup where
  created : Option Ptr
  version : Option Nat
  driver : Option String
  initOk : Bool
  settingsOk : Bool
  groupHandle : Nat → Ptr

/-- `AudioManagerFMOD::AudioManagerFMOD( log, groups )` (also `AudioManager::create`). -/
def create (groups : Int) (e : EngineStartup) : World :=
  let w0 : World :=
    { manager :=
        { m_system := none, m_numGroups := groups, m_channelGroups := none,
          m_lastPosition := ⟨.zero, .zero, .zero⟩, m_clips := [], m_clipInstances := [],
          m_systemManagedClipInstances := [] },
      clipObjects := fun _ => none, instanceObjects := fun _ => none,
      log := [], engine := [], callerSlots := fun _ => none }
  let w1 := (w0.print .Info "Initializing audio system...\n" .none).call .System_Create
  match e.created with
  | none => w1.print .Error "Failed to create FMOD\n" .none
  | some sys =>
    let w2 : World := { w1 with manager := { w1.manager with m_system := some sys } }
    let w3 := w2.call .getVersion
    let w4 :=
      match e.version with
      | some v => w3.print .Info "FMOD version: %d\n" (.int v)
      | none => w3.print .Warning "Failed to get FMOD version\n" .none
    let w5 := w4.call .getDriverInfo
    let w6 :=
      match e.driver with
      | some name => w5.print .Info "FMOD driver: %s\n" (.str name)
      | none => w5.print .Warning "Failed to get FMOD driver info\n" .none
    let w7 := w6.call .init
    if e.initOk then
      let w8 := w7.call .set3DSettings
      let w9 :=
        if e.settingsOk then w8
        else w8.print .Warning "Failed to set 3d settings in FMOD\n" .none
      if 0 < groups then
        let idx := List.range groups.toNat
        { w9 with
          manager := { w9.manager with m_channelGroups := some (idx.map e.groupHandle) },
          engine := w9.engine ++ idx.map EngineCall.createChannelGroup }
      else w9
    else w7.print .Error "Failed to initialize FMOD\n" .none

/-- `AudioManagerFMOD::getGroup( group )`: an unchecked read of `m_channelGroups[ group ]`. -/
def getGroup (w : World) (group : Int) : Except Fault Ptr :=
  match w.manager.m_channelGroups with
  | none => .error .nullDereference
  | some gs =>
    if 0 ≤ group then
      match gs[group.toNat]? with
      | some g => .ok g
      | none => .error .outOfBounds
    else .error .outOfBounds

/-- `AudioManagerFMOD::setGroupVolume( group, volume )`. -/
def setGroupVolume (w : World) (group : Int) (volume : Float32) : Except Fault World :=
  if 0 ≤ group ∧ group < w.manager.m_numGroups then
    match getGroup w group with
    | .ok g => .ok (w.call (.ChannelGroup_setVolume g volume))
    | .error f => .error f
  else
    .ok (w.print .Error "setGroupVolume - group out of range: %d\n" (.int group))

/-- `AudioManagerFMOD::registerClip( clip )`. -/
def registerClip (w : World) (clip : Ptr) : World :=
  { w with manager := { w.manager with m_clips := w.manager.m_clips ++ [clip] } }

/-- `AudioManagerFMOD::unregisterClip( clip )`: `std::find` then `erase`; erasing the end
iterator is undefined. -/
def unregisterClip (w : World) (clip : Ptr) : Except Fault World :=
  if clip ∈ w.manager.m_clips then
    .ok { w with manager := { w.manager with m_clips := w.manager.m_clips.erase clip } }
  else .error .eraseEnd

/-- `AudioManagerFMOD::registerClipInstance( clipInstance, systemManaged )`. -/
def registerClipInstance (w : World) (clipInstance : Ptr) (systemManaged : Bool) : World :=
  let m1 : AudioManagerFMOD :=
    { w.manager with m_clipInstances := w.manager.m_clipInstances ++ [clipInstance] }
  if systemManaged then
    { w with manager :=
        { m1 with m_systemManagedClipInstances :=
            m1.m_systemManagedClipInstances ++ [clipInstance] } }
  else { w with manager := m1 }

/-- `AudioManagerFMOD::unregisterClipInstance( clipInstance, systemManaged )`. -/
def unregisterClipInstance (w : World) (clipInstance : Ptr) (systemManaged : Bool) :
    Except Fault World :=
  if clipInstance ∈ w.manager.m_clipInstances then
    let m1 : AudioManagerFMOD :=
      { w.manager with m_clipInstances := w.manager.m_clipInstances.erase clipInstance }
    if systemManaged then
      if clipInstance ∈ m1.m_systemManagedClipInstances then
        .ok { w with manager :=
                { m1 with m_systemManagedClipInstances :=
                    m1.m_systemManagedClipInstances.erase clipInstance } }
      else .error .eraseEnd
    else .ok { w with manager := m1 }
  else .error .eraseEnd

/-- `new AudioClipFMOD( manager, sound, name )` at address `self`: the constructor registers
the clip, then copies the name. -/
def newAudioClip (w : World) (self : Ptr) (sound : Ptr) (name : String) : Except Fault World :=
  let w1 := registerClip w self
  match strncpy_s name with
  | .error f => .error f
  | .ok m_name =>
    .ok { w1 with clipObjects :=
            fun q => if q = self then some ⟨sound, m_name⟩ else w1.clipObjects q }

/-- `delete clip`: `AudioClipFMOD::~AudioClipFMOD` then the storage is freed. -/
def deleteAudioClip (w : World) (clip : Ptr) : Except Fault World :=
  match w.clipObjects clip with
  | none => .error .danglingPointer
  | some c =>
    match unregisterClip (w.call (.Sound_release c.m_sound)) clip with
    | .ok w1 => .ok { w1 with clipObjects := fun q => if q = clip then none else w1.clipObjects q }
    | .error f => .error f

/-- The mode flags `createAudioClip` derives from the clip properties. -/
def soundFlags (properties : Nat) : Nat :=
  let flags := if properties &&& AudioClip.Spatial ≠ 0 then FMOD_3D else FMOD_2D
  if properties &&& AudioClip.Looping ≠ 0 then flags ||| FMOD_LOOP_NORMAL else flags

/-- `AudioManagerFMOD::createAudioClip( path, properties )`.  `resultOk` and `sound` are the
engine's answer to `createSound`; `self` is the address `new` hands out. -/
def createAudioClip (w : World) (path : String) (properties : Nat)
    (resultOk : Bool) (sound : Option Ptr) (self : Ptr) : Except Fault (World × Option Ptr) :=
  match w.manager.m_system with
  | none => .error .nullDereference
  | some _ =>
    let w1 := w.call (.createSound path (soundFlags properties))
    match resultOk, sound with
    | true, some snd =>
      match newAudioClip w1 self snd path with
      | .error f => .error f
      | .ok w2 => .ok (w2, some self)
    | _, _ => .ok (w1.print .Error "Failed to create %s in FMOD\n" (.str path), none)

/-- Conversion `{ v.x, v.y, v.z }`. -/
def Vector3.toFMOD (v : Vector3) : FMOD_VECTOR := ⟨v.x, v.y, v.z⟩

/-- `new AudioClipInstanceFMOD( manager, clip, group, systemManaged, position, minDistance )`
at address `self`.  `resultOk` and `channel` are the engine's answer to `playSound`. -/
def newAudioClipInstance (w : World) (self : Ptr) (clip : Ptr) (group : Int)
    (systemManaged : Bool) (position : Vector3) (minDistance : Float32)
    (resultOk : Bool) (channel : Option Ptr) : Except Fault World :=
  match getGroup w group with
  | .error f => .error f
  | .ok channelGroup =>
    match w.manager.m_system with
    | none => .error .nullDereference
    | some _ =>
      match w.clipObjects clip with
      | none => .error .danglingPointer
      | some c =>
        let w1 := w.call (.playSound c.m_sound channelGroup true)
        let w2 :=
          match resultOk, channel with
          | true, some ch =>
            ((w1.call (.Channel_set3DAttributes ch position.toFMOD none)).call
              (.Channel_set3DMinMaxDistance ch minDistance gMaxDistance)).call
              (.Channel_setPaused ch false)
          | _, _ => w1
        match strncpy_s c.m_name with
        | .error f => .error f
        | .ok m_clipName =>
          let w3 : World :=
            { w2 with instanceObjects :=
                fun q => if q = self then some ⟨clip, systemManaged, channel, m_clipName⟩
                  else w2.instanceObjects q }
          .ok (registerClipInstance w3 self systemManaged)

/-- `delete clipInstance`: `AudioClipInstanceFMOD::~AudioClipInstanceFMOD` then the storage
is freed. -/
def deleteAudioClipInstance (w : World) (clipInstance : Ptr) : Except Fault World :=
  match w.instanceObjects clipInstance with
  | none => .error .danglingPointer
  | some o =>
    let w1 :=
      match o.m_channel with
      | some ch => w.call (.Channel_stop ch)
      | none => w
    match unregisterClipInstance w1 clipInstance o.m_systemManaged with
    | .ok w2 =>
      .ok { w2 with instanceObjects :=
              fun q => if q = clipInstance then none else w2.instanceObjects q }
    | .error f => .error f

/-- `AudioManagerFMOD::play2D( clip, group, userManagedInstance )`.  A null `clip` or
`userManagedInstance` is `none`; a non-null `userManagedInstance` is the address of the
caller's variable. -/
def play2D (w : World) (clip : Option Ptr) (group : Int) (userManagedInstance : Option Ptr)
    (self : Ptr) (resultOk : Bool) (channel : Option Ptr) : Except Fault World :=
  match clip with
  | none => .ok w
  | some c =>
    match newAudioClipInstance w self c group (if userManagedInstance.isSome then false else true)
        ⟨.zero, .zero, .zero⟩ .zero resultOk channel with
    | .error f => .error f
    | .ok w1 =>
      match userManagedInstance with
      | some slot =>
        .ok { w1 with callerSlots := fun a => if a = slot then some self else w1.callerSlots a }
      | none => .ok w1

/-- `AudioManagerFMOD::play3D( clip, group, position, minDistance, userManagedInstance )`. -/
def play3D (w : World) (clip : Option Ptr) (group : Int) (position : Vector3)
    (minDistance : Float32) (userManagedInstance : Option Ptr)
    (self : Ptr) (resultOk : Bool) (channel : Option Ptr) : Except Fault World :=
  match clip with
  | none => .ok w
  | some c =>
    match newAudioClipInstance w self c group (if userManagedInstance.isSome then false else true)
        position minDistance resultOk channel with
    | .error f => .error f
    | .ok w1 =>
      match userManagedInstance with
      | some slot =>
        .ok { w1 with callerSlots := fun a => if a = slot then some self else w1.callerSlots a }
      | none => .ok w1

/-- `AudioClipInstanceFMOD::isPlaying()`; `playing` is the engine's answer per channel. -/
def isPlaying (w : World) (playing : Ptr → Bool) (clipInstance : Ptr) :
    Except Fault (Bool × World) :=
  match w.instanceObjects clipInstance with
  | none => .error .danglingPointer
  | some o =>
    match o.m_channel with
    | some ch => .ok (playing ch, w.call (.Channel_isPlaying ch))
    | none => .ok (false, w)

/-- `AudioClipInstanceFMOD::setPaused( paused )`. -/
def setPaused (w : World) (clipInstance : Ptr) (paused : Bool) : Except Fault World :=
  match w.instanceObjects clipInstance with
  | none => .error .danglingPointer
  | some o =>
    match o.m_channel with
    | some ch => .ok (w.call (.Channel_setPaused ch paused))
    | none => .ok w

/-- `AudioClipInstanceFMOD::setVolume( volume )`. -/
def setVolume (w : World) (clipInstance : Ptr) (volume : Float32) : Except Fault World :=
  match w.instanceObjects clipInstance with
  | none => .error .danglingPointer
  | some o =>
    match o.m_channel with
    | some ch => .ok (w.call (.Channel_setVolume ch volume))
    | none => .ok w

/-- `AudioClipInstanceFMOD::setPosition( position, velocity )`; a null `velocity` is `none`. -/
def setPosition (w : World) (clipInstance : Ptr) (position : Vector3)
    (velocity : Option Vector3) : Except Fault World :=
  match w.instanceObjects clipInstance with
  | none => .error .danglingPointer
  | some o =>
    match o.m_channel with
    | some ch =>
      .ok (w.call (.Channel_set3DAttributes ch position.toFMOD (velocity.map Vector3.toFMOD)))
    | none => .ok w

/-- The reclamation loop of `update` over `m_systemManagedClipInstances`: the vector is not
changed before the `break`, so the loop walks the list it started with. -/
def reclaimLoop (playing : Ptr → Bool) : List Ptr → World → Except Fault World
  | [], w => .ok w
  | p :: rest, w =>
    match isPlaying w playing p with
    | .error f => .error f
    | .ok (true, w1) => reclaimLoop playing rest w1
    | .ok (false, w1) => deleteAudioClipInstance w1 p

/-- `AudioManagerFMOD::update( frameTime, position, forward, up )`.  `listenerOk`, `tickOk`
and `playing` are the engine's answers. -/
def update (w : World) (frameTime : Float32) (position forward up : Vector3)
    (listenerOk tickOk : Bool) (playing : Ptr → Bool) : Except Fault World :=
  match w.manager.m_system with
  | none => .ok w
  | some _ =>
    let w1 : World :=
      if Float32.lt .zero frameTime && Float32.lt frameTime .one then
        let fmodPosition := position.toFMOD
        let fmodForward := forward.toFMOD
        let fmodUp := up.toFMOD
        let velocity : FMOD_VECTOR :=
          ⟨Float32.div (Float32.sub fmodPosition.x w.manager.m_lastPosition.x) frameTime,
           Float32.div (Float32.sub fmodPosition.y w.manager.m_lastPosition.y) frameTime,
           Float32.div (Float32.sub fmodPosition.z w.manager.m_lastPosition.z) frameTime⟩
        let wa : World := { w with manager := { w.manager with m_lastPosition := fmodPosition } }
        let wb := wa.call (.set3DListenerAttributes 0 fmodPosition velocity fmodForward fmodUp)
        if listenerOk then wb
        else wb.print .Warning "Failed to set the 3d listener position in FMOD\n" .none
      else w
    let w2 := w1.call .System_update
    let w3 := if tickOk then w2 else w2.print .Warning "Failed to update FMOD\n" .none
    reclaimLoop playing w3.manager.m_systemManagedClipInstances w3

/-- The two instance loops of the destructor, `for ( i = 0; i < v.size(); i++ ) delete v[ i ]`,
where `v` is re-read on every round because `delete` unregisters from it.  Every round adds
one to `i` and never grows `v`, so `v.size()` rounds are enough. -/
def destroyInstancesLoop (v : AudioManagerFMOD → List Ptr) : Nat → Nat → World → Except Fault World
  | 0, i, w => if i < (v w.manager).length then .error .loopBudget else .ok w
  | budget + 1, i, w =>
    match (v w.manager)[i]? with
    | none => .ok w
    | some p =>
      match deleteAudioClipInstance w p with
      | .error f => .error f
      | .ok w1 => destroyInstancesLoop v budget (i + 1) w1

/-- The clip loop of the destructor: warn, then `delete m_clips[ i ]`. -/
def destroyClipsLoop : Nat → Nat → World → Except Fault World
  | 0, i, w => if i < w.manager.m_clips.length then .error .loopBudget else .ok w
  | budget + 1, i, w =>
    match w.manager.m_clips[i]? with
    | none => .ok w
    | some p =>
      match w.clipObjects p with
      | none => .error .danglingPointer
      | some c =>
        match deleteAudioClip (w.print .Warning "Failed to free clip %s\n" (.str c.m_name)) p with
        | .error f => .error f
        | .ok w1 => destroyClipsLoop budget (i + 1) w1

/-- `AudioManagerFMOD::~AudioManagerFMOD()`.  `closeOk` and `releaseOk` are the engine's
answers to `close` and `release`. -/
def destroy (w : World) (closeOk releaseOk : Bool) : Except Fault World :=
  let w0 := w.print .Info "Shutting down audio system...\n" .none
  match destroyInstancesLoop (fun m => m.m_systemManagedClipInstances)
      w0.manager.m_systemManagedClipInstances.length 0 w0 with
  | .error f => .error f
  | .ok w1 =>
    match destroyInstancesLoop (fun m => m.m_clipInstances)
        w1.manager.m_clipInstances.length 0 w1 with
    | .error f => .error f
    | .ok w2 =>
      match destroyClipsLoop w2.manager.m_clips.length 0 w2 with
      | .error f => .error f
      | .ok w3 =>
        let w4 : World :=
          match w3.manager.m_system with
          | none => w3
          | some _ =>
            let wa : World :=
              match w3.manager.m_channelGroups with
              | none => w3
              | some gs => { w3 with engine := w3.engine ++ gs.map EngineCall.ChannelGroup_release }
            let wb := wa.call .System_close
            let wc := if closeOk then wb else wb.print .Error "Failed to close FMOD\n" .none
            let wd := wc.call .System_release
            let we := if releaseOk then wd else wd.print .Error "Failed to release FMOD\n" .none
            { we with manager := { we.manager with m_system := none } }
        .ok (w4.print .Info "done\n" .none)

/-! ## Consistency of the manager's sets -/

/-- The ownership flag stored in a live instance; `false` for an address with no instance. -/
def managedBySystem (w : World) (p : Ptr) : Bool :=
  match w.instanceObjects p with
  | some o => o.m_systemManaged
  | none => false

/-- The representation invariant of the manager: its bookkeeping agrees with the objects that
are alive.  `m_clips` lists the live clips and `m_clipInstances` the live instances, each
once; `m_systemManagedClipInstances` lists, in the same order, the live instances whose flag
`m_systemManaged` is set; and the name of a live clip fits its 256-byte buffer.  Every run of
the program ends in a consistent world (`reachable_consistent`). -/
structure Consistent (w : World) : Prop where
  clips_nodup : w.manager.m_clips.Nodup
  clips_live : ∀ c, c ∈ w.manager.m_clips ↔ (w.clipObjects c).isSome = true
  clips_named : ∀ c o, w.clipObjects c = some o → o.m_name.utf8ByteSize < 256
  instances_nodup : w.manager.m_clipInstances.Nodup
  instances_live : ∀ p, p ∈ w.manager.m_clipInstances ↔ (w.instanceObjects p).isSome = true
  system_managed : w.manager.m_systemManagedClipInstances =
    w.manager.m_clipInstances.filter (managedBySystem w)

/-- The engine was created and initialised, and every group of the manager has a handle. -/
structure Working (w : World) : Prop where
  system : w.manager.m_system.isSome = true
  groups : 0 < w.manager.m_numGroups →
    ∃ gs, w.manager.m_channelGroups = some gs ∧ (gs.length : Int) = w.manager.m_numGroups

/-- What `new AudioClipInstanceFMOD` at address `p` with ownership flag `systemManaged`
changes and what it leaves alone. -/
structure InstanceAdded (w w' : World) (p : Ptr) (systemManaged : Bool) : Prop where
  instances : w'.manager.m_clipInstances = w.manager.m_clipInstances ++ [p]
  managed : w'.manager.m_systemManagedClipInstances =
    if systemManaged then w.manager.m_systemManagedClipInstances ++ [p]
    else w.manager.m_systemManagedClipInstances
  created : ∃ o, w'.instanceObjects p = some o ∧ o.m_systemManaged = systemManaged
  others : ∀ q, q ≠ p → w'.instanceObjects q = w.instanceObjects q
  clips : w'.manager.m_clips = w.manager.m_clips
  clipObjects : w'.clipObjects = w.clipObjects
  system : w'.manager.m_system = w.manager.m_system
  numGroups : w'.manager.m_numGroups = w.manager.m_numGroups
  channelGroups : w'.manager.m_channelGroups = w.manager.m_channelGroups
  lastPosition : w'.manager.m_lastPosition = w.manager.m_lastPosition
  log : w'.log = w.log

/-! ## Worlds after an operation -/

/-- The world after `delete p` of a live instance with data `o`. -/
def afterDeleteInstance (w : World) (p : Ptr) (o : AudioClipInstanceFMOD) : World :=
  { w with
    manager :=
      { w.manager with
        m_clipInstances := w.manager.m_clipInstances.erase p,
        m_systemManagedClipInstances := w.manager.m_systemManagedClipInstances.erase p },
    instanceObjects := fun q => if q = p then none else w.instanceObjects q,
    engine := w.engine ++ (match o.m_channel with | some ch => [.Channel_stop ch] | none => []) }

/-- The world after `new AudioClipFMOD` at `self` with a name that fits the buffer. -/
def afterNewAudioClip (w : World) (self : Ptr) (sound : Ptr) (name : String) : World :=
  { w with
    manager := { w.manager with m_clips := w.manager.m_clips ++ [self] },
    clipObjects := fun q => if q = self then some ⟨sound, name⟩ else w.clipObjects q }

/-- The world after `delete clip` of a live clip with data `c`. -/
def afterDeleteClip (w : World) (clip : Ptr) (c : AudioClipFMOD) : World :=
  { w with
    manager := { w.manager with m_clips := w.manager.m_clips.erase clip },
    clipObjects := fun q => if q = clip then none else w.clipObjects q,
    engine := w.engine ++ [.Sound_release c.m_sound] }

/-- The value `!isPlaying()` has on instance `p`: its channel is null or the engine reports
it inactive. -/
def finished (w : World) (playing : Ptr → Bool) (p : Ptr) : Bool :=
  match w.instanceObjects p with
  | some o =>
    match o.m_channel with
    | some ch => !playing ch
    | none => true
  | none => true

/-- The world `update` has built when it reaches the reclamation loop (engine present). -/
def beforeReclaim (w : World) (frameTime : Float32) (position forward up : Vector3)
    (listenerOk tickOk : Bool) : World :=
  let w1 : World :=
    if Float32.lt .zero frameTime && Float32.lt frameTime .one then
      let velocity : FMOD_VECTOR :=
        ⟨Float32.div (Float32.sub position.x w.manager.m_lastPosition.x) frameTime,
         Float32.div (Float32.sub position.y w.manager.m_lastPosition.y) frameTime,
         Float32.div (Float32.sub position.z w.manager.m_lastPosition.z) frameTime⟩
      let wa : World := { w with manager := { w.manager with m_lastPosition := position.toFMOD } }
      let wb := wa.call (.set3DListenerAttributes 0 position.toFMOD velocity forward.toFMOD up.toFMOD)
      if listenerOk then wb
      else wb.print .Warning "Failed to set the 3d listener position in FMOD\n" .none
    else w
  let w2 := w1.call .System_update
  if tickOk then w2 else w2.print .Warning "Failed to update FMOD\n" .none

/-- Append engine calls to the trace. -/
def World.calls (w : World) (d : List EngineCall) : World :=
  { w with engine := w.engine ++ d }

/-- The world `update` returns from pre-loop world `v`, given the `isPlaying` queries `d` the
loop made: the first finished system-managed instance, if there is one, is deleted. -/
def afterReclaim (v : World) (playing : Ptr → Bool) (d : List EngineCall) : World :=
  match v.manager.m_systemManagedClipInstances.find? (finished v playing) with
  | none => v.calls d
  | some p =>
    match v.instanceObjects p with
    | some o => afterDeleteInstance (v.calls d) p o
    | none => v.calls d

/-- Engine calls the reclamation loop can make: activity queries, and the stop of the
instance it deletes. -/
def isReclaimCall : EngineCall → Bool
  | .Channel_isPlaying _ => true
  | .Channel_stop _ => true
  | _ => false

/-- The elements a loop `for ( i = 0; i < v.size(); i++ ) erase( v[ i ] )` leaves in `v`:
those at the odd positions. -/
def everySecond {α : Type} : List α → List α
  | [] => []
  | [_] => []
  | _ :: b :: rest => b :: everySecond rest

/-! ## Reachable worlds -/

/-- The runs of a program: the manager is created once, and then the caller uses the public
interface of the manager and of its instances, deletes clips and deletes instances, each call
returning without a fault.  `new` hands out an address that holds no live object of the kind
created.  The second index is a record kept beside the run: for every instance that is
alive, whether the `play2D`/`play3D` call that created it was given a null
`userManagedInstance`. -/
inductive History : World → (Ptr → Option Bool) → Prop where
  | create (groups : Int) (e : EngineStartup) : History (create groups e) (fun _ => none)
  | setGroupVolume {w w' : World} {g : Ptr → Option Bool} (group : Int) (volume : Float32) :
      History w g → setGroupVolume w group volume = .ok w' → History w' g
  | createAudioClip {w w' : World} {g : Ptr → Option Bool} (path : String) (properties : Nat)
      (resultOk : Bool) (sound : Option Ptr) (self : Ptr) (r : Option Ptr) :
      History w g → w.clipObjects self = none →
      createAudioClip w path properties resultOk sound self = .ok (w', r) → History w' g
  | deleteAudioClip {w w' : World} {g : Ptr → Option Bool} (clip : Ptr) :
      History w g → deleteAudioClip w clip = .ok w' → History w' g
  | play2D {w w' : World} {g : Ptr → Option Bool} (clip : Option Ptr) (group : Int)
      (userManagedInstance : Option Ptr) (self : Ptr) (resultOk : Bool) (channel : Option Ptr) :
      History w g → w.instanceObjects self = none →
      play2D w clip group userManagedInstance self resultOk channel = .ok w' →
      History w' (fun q => if clip.isSome ∧ q = self then some userManagedInstance.isNone else g q)
  | play3D {w w' : World} {g : Ptr → Option Bool} (clip : Option Ptr) (group : Int)
      (position : Vector3) (minDistance : Float32) (userManagedInstance : Option Ptr)
      (self : Ptr) (resultOk : Bool) (channel : Option Ptr) :
      History w g → w.instanceObjects self = none →
      play3D w clip group position minDistance userManagedInstance self resultOk channel = .ok w' →
      History w' (fun q => if clip.isSome ∧ q = self then some userManagedInstance.isNone else g q)
  | update {w w' : World} {g : Ptr → Option Bool} (frameTime : Float32) (position forward up : Vector3)
      (listenerOk tickOk : Bool) (playing : Ptr → Bool) :
      History w g → update w frameTime position forward up listenerOk tickOk playing = .ok w' →
      History w' (fun q => if (w'.instanceObjects q).isSome then g q else none)
  | deleteAudioClipInstance {w w' : World} {g : Ptr → Option Bool} (clipInstance : Ptr) :
      History w g → deleteAudioClipInstance w clipInstance = .ok w' →
      History w' (fun q => if (w'.instanceObjects q).isSome then g q else none)
  | setPaused {w w' : World} {g : Ptr → Option Bool} (clipInstance : Ptr) (paused : Bool) :
      History w g → setPaused w clipInstance paused = .ok w' → History w' g
  | setVolume {w w' : World} {g : Ptr → Option Bool} (clipInstance : Ptr) (volume : Float32) :
      History w g → setVolume w clipInstance volume = .ok w' → History w' g
  | setPosition {w w' : World} {g : Ptr → Option Bool} (clipInstance : Ptr)
      (position : Vector3) (velocity : Option Vector3) :
      History w g → setPosition w clipInstance position velocity = .ok w' → History w' g

/-- A world some run of the program ends in. -/
def Reachable (w : World) : Prop := ∃ g, History w g

/-! ## Sample runs -/

/-- An engine that starts without trouble and names its groups 100, 101, ... -/
def startupOk : EngineStartup :=
  { created := some 1, version := some 131072, driver := some "default", initOk := true,
    settingsOk := true, groupHandle := fun i => 100 + i }

/-- The world an `Except` holds, or `d` after a fault. -/
def orElse (d : World) : Except Fault World → World
  | .ok w => w
  | .error _ => d

/-- A manager with two groups and a working engine. -/
def world0 : World := create 2 startupOk

/-- World `world0` after `createAudioClip( "a.wav", 0 )` loaded sound 50 into a clip at 10. -/
def world1 : World :=
  orElse world0 (newAudioClip (world0.call (.createSound "a.wav" FMOD_2D)) 10 50 "a.wav")

/-- World `world1` after `play2D( clip, 0, nullptr )` made instance 20 on channel 7. -/
def world2 : World := orElse world1 (play2D world1 (some 10) 0 none 20 true (some 7))

/-- World `world1` after a second clip, "b.wav" with sound 51, was created at 11. -/
def worldTwoClips : World :=
  orElse world1 (newAudioClip (world1.call (.createSound "b.wav" FMOD_2D)) 11 51 "b.wav")

/-- World `world1` after two `play2D` calls with out-variables at 900 and 901 made the
caller-managed instances 20 and 21. -/
def worldTwoInstances : World :=
  orElse world1 (play2D
    (orElse world1 (play2D world1 (some 10) 0 (some 900) 20 true (some 7)))
    (some 10) 1 (some 901) 21 true (some 8))

/-- World `world1` after `play2D( clip, 0, &out )` made the caller-managed instance 20. -/
def worldOneEach : World :=
  orElse world1 (play2D world1 (some 10) 0 (some 900) 20 true (some 7))

/-- The vector (0, 0, 0). -/
def origin : Vector3 := ⟨.zero, .zero, .zero⟩

/-- The vector (1, 0, 0). -/
def axisX : Vector3 := ⟨.one, .zero, .zero⟩

/-- The vector (0, 1, 0). -/
def axisY : Vector3 := ⟨.zero, .one, .zero⟩

/-- The vector (0, 0, 1). -/
def axisZ : Vector3 := ⟨.zero, .zero, .one⟩

/-- The value of the literal `0.016f`. -/
def frameTime16ms : Float32 := .finite (8589935 / 536870912)

/-- World `world1` after `play2D( clip, 0, &out )` and `out->setVolume( 0.5f )`. -/
def worldAfterSetVolume : World :=
  orElse worldOneEach (setVolume worldOneEach 20 (.finite (1 / 2)))

/-- An engine whose `System_Create` fails. -/
def startupNoSystem : EngineStartup :=
  { created := none, version := none, driver := none, initOk := false, settingsOk := false,
    groupHandle := fun _ => 0 }

/-- An engine that is created but whose `init` fails. -/
def startupNoInit : EngineStartup :=
  { created := some 1, version := some 131072, driver := some "default", initOk := false,
    settingsOk := false, groupHandle := fun i => 100 + i }

/-- A manager asked for one group whose engine could not be created. -/
def worldNoSystem : World := create 1 startupNoSystem

/-- A manager asked for one group whose engine could not be initialised. -/
def worldNoInit : World := create 1 startupNoInit

/-! ## Lemmas on destruction of an instance -/

theorem managedBySystem_mem (w : World) (hc : Consistent w) (p : Ptr)
    (o : AudioClipInstanceFMOD) (ho : w.instanceObjects p = some o) :
    p ∈ w.manager.m_clipInstances ∧
      (p ∈ w.manager.m_systemManagedClipInstances ↔ o.m_systemManaged = true) := by
  have hmem : p ∈ w.manager.m_clipInstances := (hc.instances_live p).2 (by simp [ho])
  refine ⟨hmem, ?_⟩
  rw [hc.system_managed, List.mem_filter]
  simp [managedBySystem, ho, hmem]

theorem deleteAudioClipInstance_eq (w : World) (hc : Consistent w) (p : Ptr)
    (o : AudioClipInstanceFMOD) (ho : w.instanceObjects p = some o) :
    deleteAudioClipInstance w p = .ok (afterDeleteInstance w p o) := by
  obtain ⟨hmem, hsys⟩ := managedBySystem_mem w hc p o ho
  have hmem1 : ∀ w1 : World, w1.manager = w.manager → p ∈ w1.manager.m_clipInstances := by
    intro w1 h; rw [h]; exact hmem
  cases hflag : o.m_systemManaged with
  | true =>
    have hs : p ∈ w.manager.m_systemManagedClipInstances := hsys.2 hflag
    cases hch : o.m_channel <;>
      simp [deleteAudioClipInstance, ho, hch, hflag, unregisterClipInstance, World.call, hmem, hs,
        afterDeleteInstance]
  | false =>
    have hs : p ∉ w.manager.m_systemManagedClipInstances := by
      intro h; have := hsys.1 h; simp [hflag] at this
    cases hch : o.m_channel <;>
      simp [deleteAudioClipInstance, ho, hch, hflag, unregisterClipInstance, World.call, hmem,
        afterDeleteInstance, List.erase_of_not_mem hs]

theorem afterDeleteInstance_consistent (w : World) (hc : Consistent w) (p : Ptr)
    (o : AudioClipInstanceFMOD) (ho : w.instanceObjects p = some o) :
    Consistent (afterDeleteInstance w p o) := by
  obtain ⟨hmem, hsys⟩ := managedBySystem_mem w hc p o ho
  have hnd := hc.instances_nodup
  refine ⟨hc.clips_nodup, hc.clips_live, hc.clips_named, hnd.erase p, ?_, ?_⟩
  · intro q
    show q ∈ w.manager.m_clipInstances.erase p ↔
      ((if q = p then none else w.instanceObjects q).isSome = true)
    rw [hnd.mem_erase_iff]
    by_cases hq : q = p
    · simp [hq]
    · simp [hq, hc.instances_live q]
  · show w.manager.m_systemManagedClipInstances.erase p =
      (w.manager.m_clipInstances.erase p).filter (managedBySystem (afterDeleteInstance w p o))
    rw [hc.system_managed, (hnd.filter _).erase_eq_filter, hnd.erase_eq_filter,
      List.filter_filter, List.filter_filter]
    apply List.filter_congr
    intro q _
    by_cases hq : q = p
    · simp [hq]
    · simp [hq, managedBySystem, afterDeleteInstance, Bool.and_comm]

theorem fresh_not_registered (w : World) (hc : Consistent w) (self : Ptr)
    (hnew : w.instanceObjects self = none) : self ∉ w.manager.m_clipInstances := by
  intro hm
  have := (hc.instances_live self).1 hm
  simp [hnew] at this

/-! ## Lemmas on construction of an instance -/

theorem newAudioClipInstance_added (w w' : World) (self clip : Ptr) (group : Int)
    (systemManaged : Bool) (position : Vector3) (minDistance : Float32) (resultOk : Bool)
    (channel : Option Ptr)
    (h : newAudioClipInstance w self clip group systemManaged position minDistance resultOk
      channel = .ok w') :
    InstanceAdded w w' self systemManaged ∧ w'.callerSlots = w.callerSlots := by
  cases hget : getGroup w group with
  | error f => simp [newAudioClipInstance, hget] at h
  | ok channelGroup =>
    cases hs : w.manager.m_system with
    | none => simp [newAudioClipInstance, hget, hs] at h
    | some sys =>
      cases hc : w.clipObjects clip with
      | none => simp [newAudioClipInstance, hget, hs, hc] at h
      | some c =>
        cases hn : strncpy_s c.m_name with
        | error f => simp [newAudioClipInstance, hget, hs, hc, hn] at h
        | ok name =>
          simp only [newAudioClipInstance, hget, hs, hc, hn] at h
          injection h with h
          subst h
          cases systemManaged <;> cases resultOk <;> cases channel <;>
            exact ⟨⟨by simp [registerClipInstance, World.call],
              by simp [registerClipInstance, World.call],
              by simp [registerClipInstance, World.call],
              by intro q hq; simp [registerClipInstance, World.call, hq],
              by simp [registerClipInstance, World.call],
              by simp [registerClipInstance, World.call],
              by simp [registerClipInstance, World.call],
              by simp [registerClipInstance, World.call],
              by simp [registerClipInstance, World.call],
              by simp [registerClipInstance, World.call],
              by simp [registerClipInstance, World.call]⟩,
              by simp [registerClipInstance, World.call]⟩

theorem getGroup_ok (w : World) (hw : Working w) (group : Int)
    (hg : 0 ≤ group ∧ group < w.manager.m_numGroups) :
    ∃ gs g, w.manager.m_channelGroups = some gs ∧ gs[group.toNat]? = some g ∧
      getGroup w group = .ok g := by
  obtain ⟨gs, hgs, hlen⟩ := hw.groups (by omega)
  have hlt : group.toNat < gs.length := by omega
  refine ⟨gs, gs[group.toNat], hgs, List.getElem?_eq_getElem hlt, ?_⟩
  simp [getGroup, hgs, hg.1, List.getElem?_eq_getElem hlt]

theorem strncpy_s_eq (src : String) (h : src.utf8ByteSize < 256) : strncpy_s src = .ok src := by
  simp [strncpy_s, h]

theorem strncpy_s_ok (src dest : String) (h : strncpy_s src = .ok dest) :
    dest = src ∧ src.utf8ByteSize < 256 := by
  unfold strncpy_s at h
  split at h
  · injection h with h
    exact ⟨h.symm, by assumption⟩
  · cases h

theorem newAudioClipInstance_ok (w : World) (hcons : Consistent w) (hw : Working w)
    (self clip : Ptr) (group : Int)
    (hg : 0 ≤ group ∧ group < w.manager.m_numGroups)
    (hclip : (w.clipObjects clip).isSome = true)
    (systemManaged : Bool) (position : Vector3) (minDistance : Float32) (resultOk : Bool)
    (channel : Option Ptr) :
    ∃ w', newAudioClipInstance w self clip group systemManaged position minDistance resultOk
      channel = .ok w' := by
  obtain ⟨gs, g, _, _, hget⟩ := getGroup_ok w hw group hg
  obtain ⟨s, hs⟩ := Option.isSome_iff_exists.1 hw.system
  obtain ⟨c, hc⟩ := Option.isSome_iff_exists.1 hclip
  simp [newAudioClipInstance, hget, hs, hc, strncpy_s_eq _ (hcons.clips_named clip c hc)]

theorem instanceAdded_consistent {w w' : World} {self : Ptr} {b : Bool}
    (h : InstanceAdded w w' self b) (hnew : w.instanceObjects self = none)
    (hc : Consistent w) : Consistent w' := by
  have hfresh : self ∉ w.manager.m_clipInstances := by
    intro hm; have := (hc.instances_live self).1 hm; simp [hnew] at this
  obtain ⟨o, ho, hflag⟩ := h.created
  have hman : ∀ q ∈ w.manager.m_clipInstances, managedBySystem w' q = managedBySystem w q := by
    intro q hq
    have hne : q ≠ self := fun e => hfresh (e ▸ hq)
    simp [managedBySystem, h.others q hne]
  refine ⟨?_, ?_, ?_, ?_, ?_, ?_⟩
  · rw [h.clips]; exact hc.clips_nodup
  · intro c; rw [h.clips, h.clipObjects]; exact hc.clips_live c
  · rw [h.clipObjects]; exact hc.clips_named
  · rw [h.instances]
    exact List.Nodup.append hc.instances_nodup (List.nodup_singleton self)
      (by simpa using hfresh)
  · intro q
    rw [h.instances]
    by_cases hq : q = self
    · subst hq; simp [ho]
    · simp [hq, h.others q hq, hc.instances_live q]
  · rw [h.managed, h.instances, List.filter_append, List.filter_congr hman, ← hc.system_managed]
    cases b <;> simp [managedBySystem, ho, hflag]

theorem consistent_of_same {w w' : World}
    (h1 : w'.manager.m_clips = w.manager.m_clips)
    (h2 : w'.manager.m_clipInstances = w.manager.m_clipInstances)
    (h3 : w'.manager.m_systemManagedClipInstances = w.manager.m_systemManagedClipInstances)
    (h4 : w'.clipObjects = w.clipObjects)
    (h5 : w'.instanceObjects = w.instanceObjects)
    (hc : Consistent w) : Consistent w' := by
  have hman : managedBySystem w' = managedBySystem w := by
    funext q; simp [managedBySystem, h5]
  refine ⟨?_, ?_, ?_, ?_, ?_, ?_⟩
  · rw [h1]; exact hc.clips_nodup
  · intro c; rw [h1, h4]; exact hc.clips_live c
  · rw [h4]; exact hc.clips_named
  · rw [h2]; exact hc.instances_nodup
  · intro q; rw [h2, h5]; exact hc.instances_live q
  · rw [h3, h2, hman]; exact hc.system_managed

/-! ## Lemmas on clips -/

theorem deleteAudioClip_eq (w : World) (hc : Consistent w) (clip : Ptr) (c : AudioClipFMOD)
    (ho : w.clipObjects clip = some c) :
    deleteAudioClip w clip = .ok (afterDeleteClip w clip c) := by
  have hmem : clip ∈ w.manager.m_clips := (hc.clips_live clip).2 (by simp [ho])
  simp [deleteAudioClip, ho, unregisterClip, World.call, hmem, afterDeleteClip]

theorem afterDeleteClip_consistent (w : World) (hc : Consistent w) (clip : Ptr)
    (c : AudioClipFMOD) : Consistent (afterDeleteClip w clip c) := by
  have hnd := hc.clips_nodup
  refine ⟨hnd.erase clip, ?_, ?_, hc.instances_nodup, hc.instances_live, hc.system_managed⟩
  · intro q
    show q ∈ w.manager.m_clips.erase clip ↔
      ((if q = clip then none else w.clipObjects q).isSome = true)
    rw [hnd.mem_erase_iff]
    by_cases hq : q = clip
    · simp [hq]
    · simp [hq, hc.clips_live q]
  · intro q o ho
    have ho' : (if q = clip then none else w.clipObjects q) = some o := ho
    by_cases hq : q = clip
    · simp [hq] at ho'
    · simp only [hq, if_false] at ho'
      exact hc.clips_named q o ho'

theorem deleteAudioClip_consistent (w w' : World) (hc : Consistent w) (clip : Ptr)
    (h : deleteAudioClip w clip = .ok w') : Consistent w' := by
  cases ho : w.clipObjects clip with
  | none => simp [deleteAudioClip, ho] at h
  | some c =>
    rw [deleteAudioClip_eq w hc clip c ho] at h
    injection h with h
    subst h
    exact afterDeleteClip_consistent w hc clip c

theorem newAudioClip_eq (w : World) (self sound : Ptr) (name : String)
    (hname : name.utf8ByteSize < 256) :
    newAudioClip w self sound name = .ok (afterNewAudioClip w self sound name) := by
  simp [newAudioClip, strncpy_s_eq name hname, registerClip, afterNewAudioClip]

theorem newAudioClip_ok (w w' : World) (self sound : Ptr) (name : String)
    (h : newAudioClip w self sound name = .ok w') :
    name.utf8ByteSize < 256 ∧ w' = afterNewAudioClip w self sound name := by
  have hname : name.utf8ByteSize < 256 := by
    by_contra hn
    simp [newAudioClip, strncpy_s, hn] at h
  rw [newAudioClip_eq w self sound name hname] at h
  injection h with h
  exact ⟨hname, h.symm⟩

theorem afterNewAudioClip_consistent (w : World) (hc : Consistent w) (self sound : Ptr)
    (name : String) (hnew : w.clipObjects self = none) (hname : name.utf8ByteSize < 256) :
    Consistent (afterNewAudioClip w self sound name) := by
  have hfresh : self ∉ w.manager.m_clips := by
    intro hm; have := (hc.clips_live self).1 hm; simp [hnew] at this
  refine ⟨?_, ?_, ?_, hc.instances_nodup, hc.instances_live, hc.system_managed⟩
  · show (w.manager.m_clips ++ [self]).Nodup
    exact List.Nodup.append hc.clips_nodup (List.nodup_singleton self) (by simpa using hfresh)
  · intro q
    show q ∈ w.manager.m_clips ++ [self] ↔
      ((if q = self then some ⟨sound, name⟩ else w.clipObjects q).isSome = true)
    by_cases hq : q = self
    · simp [hq]
    · simp [hq, hc.clips_live q]
  · intro q o ho
    have ho' : (if q = self then some ⟨sound, name⟩ else w.clipObjects q) = some o := ho
    by_cases hq : q = self
    · simp only [hq, if_true, Option.some.injEq] at ho'
      subst ho'
      exact hname
    · simp only [hq, if_false] at ho'
      exact hc.clips_named q o ho'

/-- What a returning `createAudioClip` did: a failed load logs the Error and returns null, a
successful load of a path that fits the name buffer returns the new clip. -/
theorem createAudioClip_ok (w w' : World) (path : String) (properties : Nat) (resultOk : Bool)
    (sound : Option Ptr) (self : Ptr) (r : Option Ptr)
    (h : createAudioClip w path properties resultOk sound self = .ok (w', r)) :
    (r = none ∧ w' = (w.call (.createSound path (soundFlags properties))).print .Error
        "Failed to create %s in FMOD\n" (.str path)) ∨
    (∃ snd, r = some self ∧ path.utf8ByteSize < 256 ∧
      w' = afterNewAudioClip (w.call (.createSound path (soundFlags properties))) self snd
        path) := by
  cases hs : w.manager.m_system with
  | none => simp [createAudioClip, hs] at h
  | some sys =>
    cases resultOk <;> cases sound <;> simp only [createAudioClip, hs] at h
    · injection h with h; injection h with h1 h2
      exact Or.inl ⟨h2.symm, h1.symm⟩
    · injection h with h; injection h with h1 h2
      exact Or.inl ⟨h2.symm, h1.symm⟩
    · injection h with h; injection h with h1 h2
      exact Or.inl ⟨h2.symm, h1.symm⟩
    · rename_i snd
      cases hn : newAudioClip (w.call (.createSound path (soundFlags properties))) self snd
          path with
      | error f => simp [hn] at h
      | ok w2 =>
        simp only [hn] at h
        injection h with h; injection h with h1 h2
        obtain ⟨hname, hw2⟩ := newAudioClip_ok _ _ _ _ _ hn
        exact Or.inr ⟨snd, h2.symm, hname, by rw [← h1, hw2]⟩

theorem createAudioClip_consistent (w w' : World) (hc : Consistent w) (path : String)
    (properties : Nat) (resultOk : Bool) (sound : Option Ptr) (self : Ptr) (r : Option Ptr)
    (hnew : w.clipObjects self = none)
    (h : createAudioClip w path properties resultOk sound self = .ok (w', r)) :
    Consistent w' := by
  rcases createAudioClip_ok w w' path properties resultOk sound self r h with
    ⟨_, hw⟩ | ⟨snd, _, hname, hw⟩
  · subst hw
    exact @consistent_of_same w _ rfl rfl rfl rfl rfl hc
  · subst hw
    exact afterNewAudioClip_consistent (w.call (.createSound path (soundFlags properties)))
      (@consistent_of_same w _ rfl rfl rfl rfl rfl hc) self snd path hnew hname

/-! ## Lemmas on `play2D` and `play3D` -/

theorem play2D_added (w w' : World) (clip : Ptr) (group : Int)
    (userManagedInstance : Option Ptr) (self : Ptr) (resultOk : Bool) (channel : Option Ptr)
    (h : play2D w (some clip) group userManagedInstance self resultOk channel = .ok w') :
    InstanceAdded w w' self (if userManagedInstance.isSome then false else true) ∧
      (∀ slot, userManagedInstance = some slot → w'.callerSlots slot = some self) := by
  unfold play2D at h
  simp only at h
  split at h
  · cases h
  · rename_i w1 h1
    obtain ⟨ha, _⟩ := newAudioClipInstance_added _ _ _ _ _ _ _ _ _ _ h1
    cases userManagedInstance with
    | none =>
      injection h with h; subst h
      exact ⟨ha, by intro slot hs; cases hs⟩
    | some slot =>
      injection h with h; subst h
      exact ⟨⟨ha.instances, ha.managed, ha.created, ha.others, ha.clips, ha.clipObjects,
        ha.system, ha.numGroups, ha.channelGroups, ha.lastPosition, ha.log⟩,
        by intro s hs; cases hs; simp⟩

theorem play3D_added (w w' : World) (clip : Ptr) (group : Int) (position : Vector3)
    (minDistance : Float32)
    (userManagedInstance : Option Ptr) (self : Ptr) (resultOk : Bool) (channel : Option Ptr)
    (h : play3D w (some clip) group position minDistance userManagedInstance self resultOk
      channel = .ok w') :
    InstanceAdded w w' self (if userManagedInstance.isSome then false else true) ∧
      (∀ slot, userManagedInstance = some slot → w'.callerSlots slot = some self) := by
  unfold play3D at h
  simp only at h
  split at h
  · cases h
  · rename_i w1 h1
    obtain ⟨ha, _⟩ := newAudioClipInstance_added _ _ _ _ _ _ _ _ _ _ h1
    cases userManagedInstance with
    | none =>
      injection h with h; subst h
      exact ⟨ha, by intro slot hs; cases hs⟩
    | some slot =>
      injection h with h; subst h
      exact ⟨⟨ha.instances, ha.managed, ha.created, ha.others, ha.clips, ha.clipObjects,
        ha.system, ha.numGroups, ha.channelGroups, ha.lastPosition, ha.log⟩,
        by intro s hs; cases hs; simp⟩

/-! ## Lemmas on `update` -/

/-- On a live instance `finished` is the negation of what `isPlaying()` returns. -/
theorem isPlaying_eq_not_finished (w : World) (playing : Ptr → Bool) (p : Ptr)
    (h : (w.instanceObjects p).isSome = true) :
    ∃ w1, isPlaying w playing p = .ok (!(finished w playing p), w1) := by
  obtain ⟨o, ho⟩ := Option.isSome_iff_exists.1 h
  cases hch : o.m_channel with
  | none => exact ⟨w, by simp [isPlaying, finished, ho, hch]⟩
  | some ch => exact ⟨w.call (.Channel_isPlaying ch), by simp [isPlaying, finished, ho, hch]⟩

theorem update_eq_reclaimLoop (w : World) (sys : Ptr) (hs : w.manager.m_system = some sys)
    (frameTime : Float32) (position forward up : Vector3) (listenerOk tickOk : Bool)
    (playing : Ptr → Bool) :
    update w frameTime position forward up listenerOk tickOk playing =
      reclaimLoop playing
        (beforeReclaim w frameTime position forward up listenerOk
          tickOk).manager.m_systemManagedClipInstances
        (beforeReclaim w frameTime position forward up listenerOk tickOk) := by
  simp [update, hs, beforeReclaim, Vector3.toFMOD]

theorem beforeReclaim_same (w : World) (frameTime : Float32) (position forward up : Vector3)
    (listenerOk tickOk : Bool) :
    (beforeReclaim w frameTime position forward up listenerOk tickOk).manager.m_clips =
        w.manager.m_clips ∧
      (beforeReclaim w frameTime position forward up listenerOk tickOk).manager.m_clipInstances =
        w.manager.m_clipInstances ∧
      (beforeReclaim w frameTime position forward up listenerOk
        tickOk).manager.m_systemManagedClipInstances = w.manager.m_systemManagedClipInstances ∧
      (beforeReclaim w frameTime position forward up listenerOk tickOk).clipObjects =
        w.clipObjects ∧
      (beforeReclaim w frameTime position forward up listenerOk tickOk).instanceObjects =
        w.instanceObjects := by
  unfold beforeReclaim
  cases hf : (Float32.lt .zero frameTime && Float32.lt frameTime .one) <;> cases listenerOk <;>
    cases tickOk <;> simp [World.call, World.print]

theorem reclaimLoop_eq (playing : Ptr → Bool) (l : List Ptr) :
    ∀ w : World, (∀ p ∈ l, (w.instanceObjects p).isSome = true) →
      ∃ d : List EngineCall, (∀ c ∈ d, ∃ ch, c = .Channel_isPlaying ch) ∧
        reclaimLoop playing l w =
          match l.find? (finished w playing) with
          | none => .ok (w.calls d)
          | some p => deleteAudioClipInstance (w.calls d) p := by
  induction l with
  | nil =>
    intro w _
    exact ⟨[], by simp, by simp [reclaimLoop, World.calls]⟩
  | cons p rest ih =>
    intro w hl
    obtain ⟨o, ho⟩ := Option.isSome_iff_exists.1 (hl p (by simp))
    cases hch : o.m_channel with
    | none =>
      refine ⟨[], by simp, ?_⟩
      have hf : finished w playing p = true := by simp [finished, ho, hch]
      simp [reclaimLoop, isPlaying, ho, hch, List.find?, hf, World.calls]
    | some ch =>
      cases hp : playing ch with
      | false =>
        refine ⟨[.Channel_isPlaying ch], by simp, ?_⟩
        have hf : finished w playing p = true := by simp [finished, ho, hch, hp]
        simp [reclaimLoop, isPlaying, ho, hch, hp, List.find?, hf, World.calls, World.call]
      | true =>
        have hf : finished w playing p = false := by simp [finished, ho, hch, hp]
        obtain ⟨d, hd, heq⟩ := ih (w.call (.Channel_isPlaying ch))
          (fun q hq => hl q (by simp [hq]))
        refine ⟨.Channel_isPlaying ch :: d, ?_, ?_⟩
        · intro c hc
          rcases List.mem_cons.1 hc with h | h
          · exact ⟨ch, h⟩
          · exact hd c h
        · have hfin : finished (w.call (.Channel_isPlaying ch)) playing = finished w playing := rfl
          have hcalls : (w.call (.Channel_isPlaying ch)).calls d =
              w.calls (.Channel_isPlaying ch :: d) := by
            simp [World.call, World.calls]
          rw [hfin, hcalls] at heq
          simp [reclaimLoop, isPlaying, ho, hch, hp, List.find?, hf, heq]

theorem consistent_calls (w : World) (d : List EngineCall) (hc : Consistent w) :
    Consistent (w.calls d) :=
  @consistent_of_same w _ rfl rfl rfl rfl rfl hc

theorem mem_systemManaged_live (w : World) (hc : Consistent w) (p : Ptr)
    (hp : p ∈ w.manager.m_systemManagedClipInstances) :
    (w.instanceObjects p).isSome = true := by
  rw [hc.system_managed] at hp
  exact (hc.instances_live p).1 (List.mem_of_mem_filter hp)

theorem reclaimLoop_result (v : World) (hc : Consistent v) (playing : Ptr → Bool) :
    ∃ d : List EngineCall, (∀ c ∈ d, ∃ ch, c = .Channel_isPlaying ch) ∧
      reclaimLoop playing v.manager.m_systemManagedClipInstances v =
        .ok (afterReclaim v playing d) ∧ Consistent (afterReclaim v playing d) := by
  obtain ⟨d, hd, heq⟩ := reclaimLoop_eq playing v.manager.m_systemManagedClipInstances v
    (fun p hp => mem_systemManaged_live v hc p hp)
  refine ⟨d, hd, ?_⟩
  unfold afterReclaim
  cases hfind : v.manager.m_systemManagedClipInstances.find? (finished v playing) with
  | none =>
    rw [hfind] at heq
    exact ⟨heq, consistent_calls v d hc⟩
  | some p =>
    rw [hfind] at heq
    have hp : p ∈ v.manager.m_systemManagedClipInstances := List.mem_of_find?_eq_some hfind
    obtain ⟨o, ho⟩ := Option.isSome_iff_exists.1 (mem_systemManaged_live v hc p hp)
    have ho' : (v.calls d).instanceObjects p = some o := ho
    simp only [ho]
    exact ⟨heq.trans (deleteAudioClipInstance_eq _ (consistent_calls v d hc) p o ho'),
      afterDeleteInstance_consistent _ (consistent_calls v d hc) p o ho'⟩

theorem beforeReclaim_consistent (w : World) (hc : Consistent w) (frameTime : Float32)
    (position forward up : Vector3) (listenerOk tickOk : Bool) :
    Consistent (beforeReclaim w frameTime position forward up listenerOk tickOk) := by
  obtain ⟨h1, h2, h3, h4, h5⟩ :=
    beforeReclaim_same w frameTime position forward up listenerOk tickOk
  exact consistent_of_same h1 h2 h3 h4 h5 hc

theorem update_result (w : World) (hc : Consistent w) (sys : Ptr)
    (hs : w.manager.m_system = some sys) (frameTime : Float32) (position forward up : Vector3)
    (listenerOk tickOk : Bool) (playing : Ptr → Bool) :
    ∃ d : List EngineCall, (∀ c ∈ d, ∃ ch, c = .Channel_isPlaying ch) ∧
      update w frameTime position forward up listenerOk tickOk playing =
        .ok (afterReclaim (beforeReclaim w frameTime position forward up listenerOk tickOk)
          playing d) ∧
      Consistent (afterReclaim (beforeReclaim w frameTime position forward up listenerOk tickOk)
          playing d) := by
  rw [update_eq_reclaimLoop w sys hs]
  exact reclaimLoop_result _ (beforeReclaim_consistent w hc _ _ _ _ _ _) playing

theorem update_consistent (w w' : World) (hc : Consistent w) (frameTime : Float32)
    (position forward up : Vector3) (listenerOk tickOk : Bool) (playing : Ptr → Bool)
    (h : update w frameTime position forward up listenerOk tickOk playing = .ok w') :
    Consistent w' := by
  cases hs : w.manager.m_system with
  | none =>
    simp [update, hs] at h
    subst h
    exact hc
  | some sys =>
    obtain ⟨d, _, heq, hcons⟩ :=
      update_result w hc sys hs frameTime position forward up listenerOk tickOk playing
    rw [heq] at h
    injection h with h
    subst h
    exact hcons

theorem deleteAudioClipInstance_consistent (w w' : World) (hc : Consistent w) (p : Ptr)
    (h : deleteAudioClipInstance w p = .ok w') : Consistent w' := by
  cases ho : w.instanceObjects p with
  | none => simp [deleteAudioClipInstance, ho] at h
  | some o =>
    rw [deleteAudioClipInstance_eq w hc p o ho] at h
    injection h with h
    subst h
    exact afterDeleteInstance_consistent w hc p o ho

theorem setGroupVolume_consistent (w w' : World) (hc : Consistent w) (group : Int) (volume : Float32)
    (h : setGroupVolume w group volume = .ok w') : Consistent w' := by
  unfold setGroupVolume at h
  split at h
  · split at h
    · injection h with h
      subst h
      exact @consistent_of_same w _ rfl rfl rfl rfl rfl hc
    · cases h
  · injection h with h
    subst h
    exact @consistent_of_same w _ rfl rfl rfl rfl rfl hc

/-- The calls on an instance (`setPaused`, `setVolume`, `setPosition`) change nothing but the
trace of engine calls. -/
theorem instanceCall_same (w w' : World) (p : Ptr)
    (h : (∃ paused, setPaused w p paused = .ok w') ∨ (∃ volume, setVolume w p volume = .ok w') ∨
      (∃ position velocity, setPosition w p position velocity = .ok w')) :
    w'.manager = w.manager ∧ w'.clipObjects = w.clipObjects ∧
      w'.instanceObjects = w.instanceObjects ∧ w'.log = w.log ∧
      w'.callerSlots = w.callerSlots := by
  cases ho : w.instanceObjects p with
  | none =>
    rcases h with ⟨_, h⟩ | ⟨_, h⟩ | ⟨_, _, h⟩
    · simp [setPaused, ho] at h
    · simp [setVolume, ho] at h
    · simp [setPosition, ho] at h
  | some o =>
    cases hch : o.m_channel with
    | none =>
      rcases h with ⟨_, h⟩ | ⟨_, h⟩ | ⟨_, _, h⟩
      · simp [setPaused, ho, hch] at h; subst h; exact ⟨rfl, rfl, rfl, rfl, rfl⟩
      · simp [setVolume, ho, hch] at h; subst h; exact ⟨rfl, rfl, rfl, rfl, rfl⟩
      · simp [setPosition, ho, hch] at h; subst h; exact ⟨rfl, rfl, rfl, rfl, rfl⟩
    | some ch =>
      rcases h with ⟨_, h⟩ | ⟨_, h⟩ | ⟨_, _, h⟩
      · simp [setPaused, ho, hch] at h; subst h; exact ⟨rfl, rfl, rfl, rfl, rfl⟩
      · simp [setVolume, ho, hch] at h; subst h; exact ⟨rfl, rfl, rfl, rfl, rfl⟩
      · simp [setPosition, ho, hch] at h; subst h; exact ⟨rfl, rfl, rfl, rfl, rfl⟩

theorem instanceCall_consistent (w w' : World) (hc : Consistent w) (p : Ptr)
    (h : (∃ paused, setPaused w p paused = .ok w') ∨ (∃ volume, setVolume w p volume = .ok w') ∨
      (∃ position velocity, setPosition w p position velocity = .ok w')) :
    Consistent w' := by
  obtain ⟨h1, h2, h3, _, _⟩ := instanceCall_same w w' p h
  exact consistent_of_same (by rw [h1]) (by rw [h1]) (by rw [h1]) h2 h3 hc

theorem create_consistent (groups : Int) (e : EngineStartup) : Consistent (create groups e) := by
  have h : (create groups e).manager.m_clips = [] ∧
      (create groups e).manager.m_clipInstances = [] ∧
      (create groups e).manager.m_systemManagedClipInstances = [] ∧
      (create groups e).clipObjects = (fun _ => none) ∧
      (create groups e).instanceObjects = (fun _ => none) := by
    unfold create
    cases e.created <;> cases e.version <;> cases e.driver <;> cases e.initOk <;>
      cases e.settingsOk <;> by_cases hg : 0 < groups <;> simp [World.call, World.print, hg]
  obtain ⟨h1, h2, h3, h4, h5⟩ := h
  refine ⟨?_, ?_, ?_, ?_, ?_, ?_⟩
  · rw [h1]; exact List.nodup_nil
  · intro c; simp [h1, h4]
  · intro c o ho; simp [h4] at ho
  · rw [h2]; exact List.nodup_nil
  · intro q; simp [h2, h5]
  · rw [h3, h2]; rfl

/-! ## The loops of the destructor end within their budget -/

theorem unregisterClipInstance_length (w w' : World) (p : Ptr) (b : Bool)
    (h : unregisterClipInstance w p b = .ok w') :
    w'.manager.m_clipInstances.length ≤ w.manager.m_clipInstances.length ∧
      w'.manager.m_systemManagedClipInstances.length ≤
        w.manager.m_systemManagedClipInstances.length := by
  by_cases h1 : p ∈ w.manager.m_clipInstances
  · cases b
    · simp [unregisterClipInstance, h1] at h
      subst h
      exact ⟨(List.erase_sublist _ _).length_le, le_rfl⟩
    · by_cases h2 : p ∈ w.manager.m_systemManagedClipInstances
      · simp [unregisterClipInstance, h1, h2] at h
        subst h
        exact ⟨(List.erase_sublist _ _).length_le, (List.erase_sublist _ _).length_le⟩
      · simp [unregisterClipInstance, h1, h2] at h
  · simp [unregisterClipInstance, h1] at h

theorem unregisterClipInstance_error (w : World) (p : Ptr) (b : Bool) (f : Fault)
    (h : unregisterClipInstance w p b = .error f) : f = .eraseEnd := by
  by_cases h1 : p ∈ w.manager.m_clipInstances
  · cases b
    · simp [unregisterClipInstance, h1] at h
    · by_cases h2 : p ∈ w.manager.m_systemManagedClipInstances
      · simp [unregisterClipInstance, h1, h2] at h
      · simp [unregisterClipInstance, h1, h2] at h
        exact h.symm
  · simp [unregisterClipInstance, h1] at h
    exact h.symm

theorem deleteAudioClipInstance_length (w w' : World) (p : Ptr)
    (h : deleteAudioClipInstance w p = .ok w') :
    w'.manager.m_clipInstances.length ≤ w.manager.m_clipInstances.length ∧
      w'.manager.m_systemManagedClipInstances.length ≤
        w.manager.m_systemManagedClipInstances.length := by
  cases ho : w.instanceObjects p with
  | none => simp [deleteAudioClipInstance, ho] at h
  | some o =>
    cases hch : o.m_channel with
    | none =>
      cases hu : unregisterClipInstance w p o.m_systemManaged with
      | error f => simp [deleteAudioClipInstance, ho, hch, hu] at h
      | ok w2 =>
        simp [deleteAudioClipInstance, ho, hch, hu] at h
        subst h
        exact unregisterClipInstance_length w w2 p _ hu
    | some ch =>
      cases hu : unregisterClipInstance (w.call (.Channel_stop ch)) p o.m_systemManaged with
      | error f => simp [deleteAudioClipInstance, ho, hch, hu] at h
      | ok w2 =>
        simp [deleteAudioClipInstance, ho, hch, hu] at h
        subst h
        exact unregisterClipInstance_length (w.call (.Channel_stop ch)) w2 p _ hu

theorem deleteAudioClipInstance_error (w : World) (p : Ptr) (f : Fault)
    (h : deleteAudioClipInstance w p = .error f) : f ≠ .loopBudget := by
  cases ho : w.instanceObjects p with
  | none =>
    simp [deleteAudioClipInstance, ho] at h
    subst h
    decide
  | some o =>
    cases hch : o.m_channel with
    | none =>
      cases hu : unregisterClipInstance w p o.m_systemManaged with
      | ok w2 => simp [deleteAudioClipInstance, ho, hch, hu] at h
      | error f' =>
        simp [deleteAudioClipInstance, ho, hch, hu] at h
        subst h
        rw [unregisterClipInstance_error _ _ _ _ hu]
        decide
    | some ch =>
      cases hu : unregisterClipInstance (w.call (.Channel_stop ch)) p o.m_systemManaged with
      | ok w2 => simp [deleteAudioClipInstance, ho, hch, hu] at h
      | error f' =>
        simp [deleteAudioClipInstance, ho, hch, hu] at h
        subst h
        rw [unregisterClipInstance_error _ _ _ _ hu]
        decide

theorem destroyInstancesLoop_budget (v : AudioManagerFMOD → List Ptr)
    (hv : ∀ w w' p, deleteAudioClipInstance w p = .ok w' →
      (v w'.manager).length ≤ (v w.manager).length) :
    ∀ (budget i : Nat) (w : World), (v w.manager).length ≤ i + budget →
      destroyInstancesLoop v budget i w ≠ .error .loopBudget := by
  intro budget
  induction budget with
  | zero =>
    intro i w hlen
    have : ¬ i < (v w.manager).length := by omega
    simp [destroyInstancesLoop, this]
  | succ n ih =>
    intro i w hlen
    cases hget : (v w.manager)[i]? with
    | none => simp [destroyInstancesLoop, hget]
    | some p =>
      cases hdel : deleteAudioClipInstance w p with
      | error f =>
        simp only [destroyInstancesLoop, hget, hdel]
        intro h
        injection h with h
        exact deleteAudioClipInstance_error w p f hdel h
      | ok w1 =>
        simp only [destroyInstancesLoop, hget, hdel]
        have := hv w w1 p hdel
        exact ih (i + 1) w1 (by omega)

theorem deleteAudioClip_length (w w' : World) (p : Ptr) (h : deleteAudioClip w p = .ok w') :
    w'.manager.m_clips.length ≤ w.manager.m_clips.length := by
  cases ho : w.clipObjects p with
  | none => simp [deleteAudioClip, ho] at h
  | some c =>
    by_cases hm : p ∈ w.manager.m_clips
    · simp [deleteAudioClip, ho, unregisterClip, World.call, hm] at h
      subst h
      exact (List.erase_sublist _ _).length_le
    · simp [deleteAudioClip, ho, unregisterClip, World.call, hm] at h

theorem deleteAudioClip_error (w : World) (p : Ptr) (f : Fault)
    (h : deleteAudioClip w p = .error f) : f ≠ .loopBudget := by
  cases ho : w.clipObjects p with
  | none =>
    simp [deleteAudioClip, ho] at h
    subst h
    decide
  | some c =>
    by_cases hm : p ∈ w.manager.m_clips
    · simp [deleteAudioClip, ho, unregisterClip, World.call, hm] at h
    · simp [deleteAudioClip, ho, unregisterClip, World.call, hm] at h
      subst h
      decide

theorem destroyClipsLoop_budget :
    ∀ (budget i : Nat) (w : World), w.manager.m_clips.length ≤ i + budget →
      destroyClipsLoop budget i w ≠ .error .loopBudget := by
  intro budget
  induction budget with
  | zero =>
    intro i w hlen
    have : ¬ i < w.manager.m_clips.length := by omega
    simp [destroyClipsLoop, this]
  | succ n ih =>
    intro i w hlen
    cases hget : w.manager.m_clips[i]? with
    | none => simp [destroyClipsLoop, hget]
    | some p =>
      cases ho : w.clipObjects p with
      | none => simp [destroyClipsLoop, hget, ho]
      | some c =>
        cases hdel : deleteAudioClip
            (w.print .Warning "Failed to free clip %s\n" (.str c.m_name)) p with
        | error f =>
          simp only [destroyClipsLoop, hget, ho, hdel]
          intro h
          injection h with h
          exact deleteAudioClip_error _ p f hdel h
        | ok w1 =>
          simp only [destroyClipsLoop, hget, ho, hdel]
          have h1 := deleteAudioClip_length _ w1 p hdel
          have h2 : (w.print .Warning "Failed to free clip %s\n"
              (.str c.m_name)).manager.m_clips = w.manager.m_clips := rfl
          rw [h2] at h1
          exact ih (i + 1) w1 (by omega)

/-- The destructor never stops for lack of loop budget: the budget `v.size()` covers every
round each loop can make. -/
theorem destroy_budget_suffices (w : World) (closeOk releaseOk : Bool) :
    destroy w closeOk releaseOk ≠ .error .loopBudget := by
  unfold destroy
  simp only
  split
  · rename_i f h1
    intro h
    injection h with h
    subst h
    exact destroyInstancesLoop_budget (fun m => m.m_systemManagedClipInstances)
      (fun w w' p hd => (deleteAudioClipInstance_length w w' p hd).2) _ 0 _ (by simp) h1
  · split
    · rename_i f h2
      intro h
      injection h with h
      subst h
      exact destroyInstancesLoop_budget (fun m => m.m_clipInstances)
        (fun w w' p hd => (deleteAudioClipInstance_length w w' p hd).1) _ 0 _ (by simp) h2
    · split
      · rename_i f h3
        intro h
        injection h with h
        subst h
        exact destroyClipsLoop_budget _ 0 _ (by simp) h3
      · simp

/-! ## What the destructor leaves behind -/

theorem destroyInstancesLoop_ok (v : AudioManagerFMOD → List Ptr)
    (hv : ∀ w w' p, deleteAudioClipInstance w p = .ok w' →
      (v w'.manager).length ≤ (v w.manager).length)
    (hlive : ∀ w p, Consistent w → p ∈ v w.manager → (w.instanceObjects p).isSome = true) :
    ∀ (budget i : Nat) (w : World), Consistent w → (v w.manager).length ≤ i + budget →
      ∃ w', destroyInstancesLoop v budget i w = .ok w' ∧ Consistent w' ∧
        w'.manager.m_clips = w.manager.m_clips ∧
        w'.manager.m_system = w.manager.m_system ∧
        w'.manager.m_channelGroups = w.manager.m_channelGroups ∧ w'.log = w.log := by
  intro budget
  induction budget with
  | zero =>
    intro i w hc hlen
    have : ¬ i < (v w.manager).length := by omega
    exact ⟨w, by simp [destroyInstancesLoop, this], hc, rfl, rfl, rfl, rfl⟩
  | succ n ih =>
    intro i w hc hlen
    cases hget : (v w.manager)[i]? with
    | none => exact ⟨w, by simp [destroyInstancesLoop, hget], hc, rfl, rfl, rfl, rfl⟩
    | some p =>
      have hp : p ∈ v w.manager := List.getElem?_mem hget
      obtain ⟨o, ho⟩ := Option.isSome_iff_exists.1 (hlive w p hc hp)
      have hdel := deleteAudioClipInstance_eq w hc p o ho
      have hc1 := afterDeleteInstance_consistent w hc p o ho
      have hlen1 := hv w _ p hdel
      obtain ⟨w', h1, h2, h3, h4, h5, h6⟩ := ih (i + 1) (afterDeleteInstance w p o) hc1 (by omega)
      exact ⟨w', by simp only [destroyInstancesLoop, hget, hdel]; exact h1, h2, h3, h4, h5, h6⟩

theorem destroyClipsLoop_done (budget i : Nat) (w : World)
    (h : w.manager.m_clips.length ≤ i) : destroyClipsLoop budget i w = .ok w := by
  cases budget with
  | zero =>
    have : ¬ i < w.manager.m_clips.length := by omega
    simp [destroyClipsLoop, this]
  | succ n =>
    have : w.manager.m_clips[i]? = none := List.getElem?_eq_none h
    simp [destroyClipsLoop, this]

theorem destroyClipsLoop_eq :
    ∀ (budget : Nat) (front back : List Ptr) (w : World), Consistent w →
      w.manager.m_clips = front ++ back → back.length ≤ budget →
      ∃ w', destroyClipsLoop budget front.length w = .ok w' ∧
        w'.manager.m_clips = front ++ everySecond back ∧
        w'.manager.m_clipInstances = w.manager.m_clipInstances ∧
        w'.manager.m_systemManagedClipInstances = w.manager.m_systemManagedClipInstances ∧
        w'.manager.m_system = w.manager.m_system ∧
        w'.manager.m_channelGroups = w.manager.m_channelGroups := by
  intro budget
  induction budget with
  | zero =>
    intro front back w _ hl hb
    have hback : back = [] := List.length_eq_zero.1 (Nat.le_zero.1 hb)
    subst hback
    refine ⟨w, destroyClipsLoop_done 0 _ w (by simp [hl]), by simpa [everySecond] using hl, rfl,
      rfl, rfl, rfl⟩
  | succ n ih =>
    intro front back w hc hl hb
    cases back with
    | nil =>
      exact ⟨w, destroyClipsLoop_done _ _ w (by simp [hl]), by simpa [everySecond] using hl, rfl,
        rfl, rfl, rfl⟩
    | cons p rest =>
      have hget : w.manager.m_clips[front.length]? = some p := by
        rw [hl, List.getElem?_append_right le_rfl]; simp
      have hmem : p ∈ w.manager.m_clips := by rw [hl]; simp
      obtain ⟨c, ho⟩ := Option.isSome_iff_exists.1 ((hc.clips_live p).1 hmem)
      have hcp : Consistent (w.print .Warning "Failed to free clip %s\n" (.str c.m_name)) :=
        @consistent_of_same w _ rfl rfl rfl rfl rfl hc
      have hdel := deleteAudioClip_eq _ hcp p c ho
      have hc1 := afterDeleteClip_consistent _ hcp p c
      have hnd : (front ++ p :: rest).Nodup := hl ▸ hc.clips_nodup
      have hpf : p ∉ front := by
        intro hin
        have := (List.nodup_append.1 hnd).2.2
        exact this hin (by simp) 
      have herase : (afterDeleteClip (w.print .Warning "Failed to free clip %s\n"
          (.str c.m_name)) p c).manager.m_clips = front ++ rest := by
        show w.manager.m_clips.erase p = front ++ rest
        rw [hl, List.erase_append_right _ hpf]
        simp
      have hstep : destroyClipsLoop (n + 1) front.length w =
          destroyClipsLoop n (front.length + 1)
            (afterDeleteClip (w.print .Warning "Failed to free clip %s\n" (.str c.m_name))
              p c) := by
        simp only [destroyClipsLoop, hget, ho, hdel]
      cases rest with
      | nil =>
        refine ⟨_, hstep.trans (destroyClipsLoop_done _ _ _ (by simp [herase])), ?_, rfl, rfl,
          rfl, rfl⟩
        simpa [everySecond] using herase
      | cons q rest' =>
        have hl' : (afterDeleteClip (w.print .Warning "Failed to free clip %s\n"
            (.str c.m_name)) p c).manager.m_clips = (front ++ [q]) ++ rest' := by
          rw [herase]; simp
        have hb' : rest'.length ≤ n := by
          simp only [List.length_cons] at hb; omega
        obtain ⟨w', h1, h2, h3, h4, h5, h6⟩ := ih (front ++ [q]) rest' _ hc1 hl' hb'
        have hlen : (front ++ [q]).length = front.length + 1 := by simp
        rw [hlen] at h1
        exact ⟨w', hstep.trans h1, by simpa [everySecond] using h2, h3, h4, h5, h6⟩

/-- On a consistent world the destructor returns, and of the clips that were alive it leaves
in `m_clips` those at the odd positions. -/
theorem destroy_leaves_every_second_clip (w : World) (hc : Consistent w)
    (closeOk releaseOk : Bool) :
    ∃ w', destroy w closeOk releaseOk = .ok w' ∧
      w'.manager.m_clips = everySecond w.manager.m_clips := by
  have hc0 : Consistent (w.print .Info "Shutting down audio system...\n" .none) :=
    @consistent_of_same w _ rfl rfl rfl rfl rfl hc
  obtain ⟨w1, h1, hc1, hclips1, _⟩ :=
    destroyInstancesLoop_ok (fun m => m.m_systemManagedClipInstances)
      (fun w w' p hd => (deleteAudioClipInstance_length w w' p hd).2)
      (fun w p hcw hp => mem_systemManaged_live w hcw p hp)
      (w.print .Info "Shutting down audio system...\n"
        .none).manager.m_systemManagedClipInstances.length 0 _ hc0 (by simp)
  obtain ⟨w2, h2, hc2, hclips2, _⟩ :=
    destroyInstancesLoop_ok (fun m => m.m_clipInstances)
      (fun w w' p hd => (deleteAudioClipInstance_length w w' p hd).1)
      (fun w p hcw hp => (hcw.instances_live p).1 hp)
      w1.manager.m_clipInstances.length 0 w1 hc1 (by simp)
  obtain ⟨w3, h3, hclips3, _⟩ :=
    destroyClipsLoop_eq w2.manager.m_clips.length [] w2.manager.m_clips w2 hc2 (by simp) le_rfl
  have hcl : w3.manager.m_clips = everySecond w.manager.m_clips := by
    rw [hclips3, hclips2, hclips1]
    rfl
  simp only [List.length_nil] at h3
  unfold destroy
  simp only [h1, h2, h3]
  refine ⟨_, rfl, ?_⟩
  cases hs : w3.manager.m_system with
  | none => simpa [World.print, hs] using hcl
  | some sys =>
    cases hg : w3.manager.m_channelGroups <;> cases closeOk <;> cases releaseOk <;>
      simpa [World.print, World.call, hs, hg] using hcl

/-! ## Every reachable world is consistent -/

theorem history_consistent (w : World) (g : Ptr → Option Bool) (hr : History w g) :
    Consistent w := by
  induction hr with
  | create groups e => exact create_consistent groups e
  | setGroupVolume group volume _ h ih => exact setGroupVolume_consistent _ _ ih group volume h
  | createAudioClip path properties resultOk sound self r _ hnew h ih =>
    exact createAudioClip_consistent _ _ ih path properties resultOk sound self r hnew h
  | deleteAudioClip clip _ h ih => exact deleteAudioClip_consistent _ _ ih clip h
  | play2D clip group userManagedInstance self resultOk channel _ hnew h ih =>
    cases clip with
    | none =>
      simp [AudioAPI.play2D] at h
      subst h
      exact ih
    | some c =>
      exact instanceAdded_consistent
        (play2D_added _ _ c group userManagedInstance self resultOk channel h).1 hnew ih
  | play3D clip group position minDistance userManagedInstance self resultOk channel _ hnew h ih =>
    cases clip with
    | none =>
      simp [AudioAPI.play3D] at h
      subst h
      exact ih
    | some c =>
      exact instanceAdded_consistent
        (play3D_added _ _ c group position minDistance userManagedInstance self resultOk
          channel h).1 hnew ih
  | update frameTime position forward up listenerOk tickOk playing _ h ih =>
    exact update_consistent _ _ ih frameTime position forward up listenerOk tickOk playing h
  | deleteAudioClipInstance clipInstance _ h ih =>
    exact deleteAudioClipInstance_consistent _ _ ih clipInstance h
  | setPaused clipInstance paused _ h ih =>
    exact instanceCall_consistent _ _ ih clipInstance (Or.inl ⟨paused, h⟩)
  | setVolume clipInstance volume _ h ih =>
    exact instanceCall_consistent _ _ ih clipInstance (Or.inr (Or.inl ⟨volume, h⟩))
  | setPosition clipInstance position velocity _ h ih =>
    exact instanceCall_consistent _ _ ih clipInstance (Or.inr (Or.inr ⟨position, velocity, h⟩))

theorem reachable_consistent (w : World) (hr : Reachable w) : Consistent w := by
  obtain ⟨g, hg⟩ := hr
  exact history_consistent w g hg

theorem deleteAudioClipInstance_objects (w w' : World) (hc : Consistent w) (p : Ptr)
    (h : deleteAudioClipInstance w p = .ok w') :
    ∀ q, w'.instanceObjects q = none ∨ w'.instanceObjects q = w.instanceObjects q := by
  cases ho : w.instanceObjects p with
  | none => simp [deleteAudioClipInstance, ho] at h
  | some o =>
    rw [deleteAudioClipInstance_eq w hc p o ho] at h
    injection h with h
    subst h
    intro q
    by_cases hq : q = p
    · left; simp [afterDeleteInstance, hq]
    · right; simp [afterDeleteInstance, hq]

theorem afterReclaim_objects (v : World) (playing : Ptr → Bool) (d : List EngineCall) :
    ∀ q, (afterReclaim v playing d).instanceObjects q = none ∨
      (afterReclaim v playing d).instanceObjects q = v.instanceObjects q := by
  intro q
  unfold afterReclaim
  split
  · right; rfl
  · split
    · rename_i p _ _ o _
      by_cases hq : q = p
      · left; simp [afterDeleteInstance, hq]
      · right; simp [afterDeleteInstance, hq, World.calls]
    · right; rfl

theorem update_objects (w w' : World) (hc : Consistent w) (frameTime : Float32)
    (position forward up : Vector3) (listenerOk tickOk : Bool) (playing : Ptr → Bool)
    (h : update w frameTime position forward up listenerOk tickOk playing = .ok w') :
    ∀ q, w'.instanceObjects q = none ∨ w'.instanceObjects q = w.instanceObjects q := by
  cases hs : w.manager.m_system with
  | none =>
    simp [update, hs] at h
    subst h
    intro q; right; rfl
  | some sys =>
    obtain ⟨d, _, heq, _⟩ :=
      update_result w hc sys hs frameTime position forward up listenerOk tickOk playing
    rw [heq] at h
    injection h with h
    subst h
    intro q
    have h5 := (beforeReclaim_same w frameTime position forward up listenerOk tickOk).2.2.2.2
    rw [← h5]
    exact afterReclaim_objects _ playing d q

/-- The record kept beside a run is the ownership flag of the live instances. -/
theorem history_record (w : World) (g : Ptr → Option Bool) (hr : History w g) :
    ∀ p, g p = (w.instanceObjects p).map (fun o => o.m_systemManaged) := by
  induction hr with
  | create groups e =>
    intro p
    have h5 : (create groups e).instanceObjects = (fun _ => none) := by
      unfold AudioAPI.create
      cases e.created <;> cases e.version <;> cases e.driver <;> cases e.initOk <;>
        cases e.settingsOk <;> by_cases hg : 0 < groups <;> simp [World.call, World.print, hg]
    simp [h5]
  | @setGroupVolume w w' g group volume _ h ih =>
    intro p
    have : w'.instanceObjects = w.instanceObjects := by
      unfold AudioAPI.setGroupVolume at h
      split at h
      · split at h
        · injection h with h; subst h; rfl
        · cases h
      · injection h with h; subst h; rfl
    rw [this]; exact ih p
  | @createAudioClip w w' g path properties resultOk sound self r _ hnew h ih =>
    intro p
    have : w'.instanceObjects = w.instanceObjects := by
      rcases createAudioClip_ok w w' path properties resultOk sound self r h with
        ⟨_, hw⟩ | ⟨snd, _, _, hw⟩ <;> subst hw <;> rfl
    rw [this]; exact ih p
  | @deleteAudioClip w w' g clip hw h ih =>
    intro p
    have : w'.instanceObjects = w.instanceObjects := by
      cases ho : w.clipObjects clip with
      | none => simp [AudioAPI.deleteAudioClip, ho] at h
      | some c =>
        rw [deleteAudioClip_eq w (history_consistent w g hw) clip c ho] at h
        injection h with h; subst h; rfl
    rw [this]; exact ih p
  | @play2D w w' g clip group userManagedInstance self resultOk channel _ hnew h ih =>
    intro p
    cases clip with
    | none =>
      simp [AudioAPI.play2D] at h
      subst h
      simpa using ih p
    | some c =>
      obtain ⟨ha, _⟩ := play2D_added _ _ c group userManagedInstance self resultOk channel h
      obtain ⟨o, ho, hflag⟩ := ha.created
      by_cases hp : p = self
      · subst hp
        cases userManagedInstance <;> simp_all
      · simp [hp, ha.others p hp, ih p]
  | @play3D w w' g clip group position minDistance userManagedInstance self resultOk channel _
      hnew h ih =>
    intro p
    cases clip with
    | none =>
      simp [AudioAPI.play3D] at h
      subst h
      simpa using ih p
    | some c =>
      obtain ⟨ha, _⟩ := play3D_added _ _ c group position minDistance userManagedInstance self
        resultOk channel h
      obtain ⟨o, ho, hflag⟩ := ha.created
      by_cases hp : p = self
      · subst hp
        cases userManagedInstance <;> simp_all
      · simp [hp, ha.others p hp, ih p]
  | @update w w' g frameTime position forward up listenerOk tickOk playing hw h ih =>
    intro p
    rcases update_objects w w' (history_consistent w g hw) frameTime position forward up
      listenerOk tickOk playing h p with hq | hq
    · simp [hq]
    · cases hl : w'.instanceObjects p with
      | none => simp [hl]
      | some o => simp [ih p, ← hq, hl]
  | @deleteAudioClipInstance w w' g clipInstance hw h ih =>
    intro p
    rcases deleteAudioClipInstance_objects w w' (history_consistent w g hw) clipInstance h p
      with hq | hq
    · simp [hq]
    · cases hl : w'.instanceObjects p with
      | none => simp [hl]
      | some o => simp [ih p, ← hq, hl]
  | @setPaused w w' g clipInstance paused _ h ih =>
    intro p
    rw [(instanceCall_same w w' clipInstance (Or.inl ⟨paused, h⟩)).2.2.1]
    exact ih p
  | @setVolume w w' g clipInstance volume _ h ih =>
    intro p
    rw [(instanceCall_same w w' clipInstance (Or.inr (Or.inl ⟨volume, h⟩))).2.2.1]
    exact ih p
  | @setPosition w w' g clipInstance position velocity _ h ih =>
    intro p
    rw [(instanceCall_same w w' clipInstance
      (Or.inr (Or.inr ⟨position, velocity, h⟩))).2.2.1]
    exact ih p

theorem update_sets (w : World) (hc : Consistent w) (sys : Ptr)
    (hs : w.manager.m_system = some sys) (frameTime : Float32) (position forward up : Vector3)
    (listenerOk tickOk : Bool) (playing : Ptr → Bool) :
    ∃ (d : List EngineCall) (w' : World),
      update w frameTime position forward up listenerOk tickOk playing = .ok w' ∧
      (∀ c ∈ d, isReclaimCall c = true) ∧
      w'.engine =
        (beforeReclaim w frameTime position forward up listenerOk tickOk).engine ++ d ∧
      w'.manager.m_lastPosition =
        (beforeReclaim w frameTime position forward up listenerOk tickOk).manager.m_lastPosition ∧
      w'.log = (beforeReclaim w frameTime position forward up listenerOk tickOk).log ∧
      (match w.manager.m_systemManagedClipInstances.find? (finished w playing) with
       | none =>
         w'.manager.m_systemManagedClipInstances = w.manager.m_systemManagedClipInstances ∧
         w'.manager.m_clipInstances = w.manager.m_clipInstances
       | some p =>
         w'.manager.m_systemManagedClipInstances =
           w.manager.m_systemManagedClipInstances.erase p ∧
         w'.manager.m_clipInstances = w.manager.m_clipInstances.erase p) := by
  obtain ⟨d, hd, heq, _⟩ :=
    update_result w hc sys hs frameTime position forward up listenerOk tickOk playing
  obtain ⟨_, h2, h3, _, h5⟩ :=
    beforeReclaim_same w frameTime position forward up listenerOk tickOk
  have hfin : finished (beforeReclaim w frameTime position forward up listenerOk tickOk) playing =
      finished w playing := by
    funext q; simp [finished, h5]
  have hd' : ∀ c ∈ d, isReclaimCall c = true := by
    intro c hc'
    obtain ⟨ch, rfl⟩ := hd c hc'
    rfl
  generalize beforeReclaim w frameTime position forward up listenerOk tickOk = v at *
  unfold afterReclaim at heq
  rw [hfin, h3] at heq
  cases hfind : w.manager.m_systemManagedClipInstances.find? (finished w playing) with
  | none =>
    rw [hfind] at heq
    exact ⟨d, _, heq, hd', rfl, rfl, rfl, h3, h2⟩
  | some p =>
    rw [hfind] at heq
    have hp : p ∈ w.manager.m_systemManagedClipInstances := List.mem_of_find?_eq_some hfind
    obtain ⟨o, ho⟩ := Option.isSome_iff_exists.1 (mem_systemManaged_live w hc p hp)
    rw [h5] at heq
    simp only [ho] at heq
    refine ⟨d ++ (match o.m_channel with | some ch => [.Channel_stop ch] | none => []), _, heq,
      ?_, ?_, rfl, rfl, ?_, ?_⟩
    · intro c hc'
      rcases List.mem_append.1 hc' with h | h
      · exact hd' c h
      · cases hch : o.m_channel with
        | none => simp [hch] at h
        | some ch => simp [hch] at h; subst h; rfl
    · simp [afterDeleteInstance, World.calls]
    · simp [afterDeleteInstance, World.calls, h3]
    · simp [afterDeleteInstance, World.calls, h2]

theorem erase_eq_filter_ne (l : List Ptr) (p : Ptr) (h : l.Nodup) :
    l.erase p = l.filter (fun q => q ≠ p) := by
  rw [h.erase_eq_filter]
  apply List.filter_congr
  intro x _
  by_cases hx : x = p <;> simp [hx]

/-! ## A manager whose engine starts is working -/

theorem create_working (groups : Int) (e : EngineStartup) (sys : Ptr)
    (hcreated : e.created = some sys) (hinit : e.initOk = true) :
    Working (create groups e) := by
  have h : (create groups e).manager.m_system = some sys ∧
      (create groups e).manager.m_numGroups = groups ∧
      (0 < groups → (create groups e).manager.m_channelGroups =
        some ((List.range groups.toNat).map e.groupHandle)) := by
    unfold create
    cases e.version <;> cases e.driver <;> cases e.settingsOk <;> by_cases hg : 0 < groups <;>
      simp [hcreated, hinit, World.call, World.print, hg]
  obtain ⟨h1, h2, h3⟩ := h
  refine ⟨by simp [h1], ?_⟩
  intro hpos
  rw [h2] at hpos
  refine ⟨_, h3 hpos, ?_⟩
  rw [h2]
  simp only [List.length_map, List.length_range]
  omega

/-! ## Lemmas on `float` -/

theorem Float32.bitLength_zero (budget : Nat) : Float32.bitLength budget 0 = 0 := by
  cases budget <;> simp [Float32.bitLength]

/-- The budget `n` is enough: `bitLength n n` is the number of binary digits of `n`. -/
theorem Float32.bitLength_bounds :
    ∀ budget n : Nat, n ≤ budget →
      n < 2 ^ Float32.bitLength budget n ∧
        (n ≠ 0 → 2 ^ (Float32.bitLength budget n - 1) ≤ n) := by
  intro budget
  induction budget with
  | zero =>
    intro n hn
    have h0 : n = 0 := Nat.le_zero.1 hn
    subst h0
    simp [Float32.bitLength]
  | succ b ih =>
    intro n hn
    by_cases h0 : n = 0
    · subst h0
      simp [Float32.bitLength]
    · have hstep : Float32.bitLength (b + 1) n = Float32.bitLength b (n / 2) + 1 := by
        simp [Float32.bitLength, h0]
      obtain ⟨h1, h2⟩ := ih (n / 2) (by omega)
      rw [hstep]
      constructor
      · rw [Nat.pow_succ]
        omega
      · intro _
        simp only [Nat.add_sub_cancel]
        by_cases hh : n / 2 = 0
        · rw [hh, Float32.bitLength_zero]
          simp
          omega
        · have h3 := h2 hh
          have hpos : Float32.bitLength b (n / 2) ≠ 0 := by
            intro hz
            rw [hz] at h1
            simp at h1
            exact hh h1
          obtain ⟨L, hL⟩ := Nat.exists_eq_succ_of_ne_zero hpos
          rw [hL] at h3 ⊢
          simp only [Nat.succ_eq_add_one, Nat.add_sub_cancel] at h3
          rw [Nat.pow_succ]
          omega

theorem Float32.lt_eq_false_of_le (a b : Float32) (h : Float32.le a b = true) :
    Float32.lt b a = false := by
  cases a <;> cases b <;> simp_all [Float32.le, Float32.lt, Float32.toRat]
  rename_i na nb
  cases na <;> cases nb <;> simp_all

theorem Float32.lt_nan_left (a : Float32) : Float32.lt .nan a = false := by
  cases a <;> rfl

theorem Float32.lt_nan_right (a : Float32) : Float32.lt a .nan = false := by
  cases a <;> rfl

/-- The literal `0.016f` is the binary32 number 8589935 / 2 ^ 29. -/
theorem Float32.ofRat_16ms : Float32.ofRat 0.016 = frameTime16ms := by
  with_unfolding_all rfl

theorem Float32.zero_lt_16ms : Float32.lt .zero frameTime16ms = true := by
  with_unfolding_all rfl

theorem Float32.lt_one_16ms : Float32.lt frameTime16ms .one = true := by
  with_unfolding_all rfl

theorem Float32.sub_one_zero : Float32.sub .one .zero = .one := by
  with_unfolding_all rfl

theorem Float32.sub_zero_zero : Float32.sub .zero .zero = .zero := by
  with_unfolding_all rfl

/-- In binary32, `1.0f / 0.016f` is 16383999 / 2 ^ 18, about 62.499996. -/
theorem Float32.div_one_16ms :
    Float32.div .one frameTime16ms = .finite (16383999 / 262144) := by
  with_unfolding_all rfl

theorem Float32.div_zero_16ms : Float32.div .zero frameTime16ms = .zero := by
  with_unfolding_all rfl

/-! ## The sample runs are runs -/

theorem world0_working : Working world0 :=
  ⟨rfl, fun _ => ⟨[100, 101], rfl, rfl⟩⟩

theorem world1_working : Working world1 :=
  ⟨rfl, fun _ => ⟨[100, 101], rfl, rfl⟩⟩

theorem world2_working : Working world2 :=
  ⟨rfl, fun _ => ⟨[100, 101], rfl, rfl⟩⟩

theorem world0_reachable : Reachable world0 :=
  ⟨_, History.create 2 startupOk⟩

theorem world1_reachable : Reachable world1 :=
  ⟨_, History.createAudioClip "a.wav" 0 true (some 50) 10 (some 10)
    (History.create 2 startupOk) rfl rfl⟩

theorem world2_history :
    History world2
      (fun q => if (some 10 : Option Ptr).isSome ∧ q = 20 then some (none : Option Ptr).isNone
        else none) :=
  History.play2D (some 10) 0 none 20 true (some 7)
    (History.createAudioClip "a.wav" 0 true (some 50) 10 (some 10)
      (History.create 2 startupOk) rfl rfl) rfl rfl

theorem world2_reachable : Reachable world2 :=
  ⟨_, world2_history⟩

theorem worldTwoClips_reachable : Reachable worldTwoClips :=
  ⟨_, History.createAudioClip "b.wav" 0 true (some 51) 11 (some 11)
    (History.createAudioClip "a.wav" 0 true (some 50) 10 (some 10)
      (History.create 2 startupOk) rfl rfl) rfl rfl⟩

theorem worldTwoInstances_reachable : Reachable worldTwoInstances :=
  ⟨_, History.play2D (some 10) 1 (some 901) 21 true (some 8)
    (History.play2D (some 10) 0 (some 900) 20 true (some 7)
      (History.createAudioClip "a.wav" 0 true (some 50) 10 (some 10)
        (History.create 2 startupOk) rfl rfl) rfl rfl) rfl rfl⟩

theorem worldAfterSetVolume_reachable : Reachable worldAfterSetVolume :=
  ⟨_, History.setVolume 20 (.finite (1 / 2))
    (History.play2D (some 10) 0 (some 900) 20 true (some 7)
      (History.createAudioClip "a.wav" 0 true (some 50) 10 (some 10)
        (History.create 2 startupOk) rfl rfl) rfl rfl) rfl⟩

theorem worldAfterSetVolume_working : Working worldAfterSetVolume :=
  ⟨rfl, fun _ => ⟨[100, 101], rfl, rfl⟩⟩

theorem worldNoSystem_reachable : Reachable worldNoSystem :=
  ⟨_, History.create 1 startupNoSystem⟩

/-! ## The claims -/

/-- C1: in every consistent world with a working engine, a live clip and a group in range,
`play2D` and `play3D` create one instance at the address `new` hands out: it was in no set
before, it is appended to `m_clipInstances`, it is appended to
`m_systemManagedClipInstances` exactly when `userManagedInstance` is null, it records that
ownership in its flag, and a non-null `userManagedInstance` receives its address.  With a
null clip both calls return the world they were given, whatever that world is. -/
theorem play_registers_instance (w : World) (clip : Ptr) (group : Int) (position : Vector3)
    (minDistance : Float32) (userManagedInstance : Option Ptr) (self : Ptr) (resultOk : Bool)
    (channel : Option Ptr) :
    (play2D w none group userManagedInstance self resultOk channel = .ok w ∧
      play3D w none group position minDistance userManagedInstance self resultOk channel =
        .ok w) ∧
    (Consistent w → Working w → (w.clipObjects clip).isSome = true →
      (0 ≤ group ∧ group < w.manager.m_numGroups) → w.instanceObjects self = none →
      self ∉ w.manager.m_clipInstances ∧ self ∉ w.manager.m_systemManagedClipInstances ∧
      (∃ w', play2D w (some clip) group userManagedInstance self resultOk channel = .ok w' ∧
        w'.manager.m_clipInstances = w.manager.m_clipInstances ++ [self] ∧
        w'.manager.m_systemManagedClipInstances =
          (if userManagedInstance = none then w.manager.m_systemManagedClipInstances ++ [self]
           else w.manager.m_systemManagedClipInstances) ∧
        (∃ o, w'.instanceObjects self = some o ∧
          (o.m_systemManaged = true ↔ userManagedInstance = none)) ∧
        (∀ q, q ≠ self → w'.instanceObjects q = w.instanceObjects q) ∧
        (∀ slot, userManagedInstance = some slot → w'.callerSlots slot = some self)) ∧
      (∃ w', play3D w (some clip) group position minDistance userManagedInstance self resultOk
          channel = .ok w' ∧
        w'.manager.m_clipInstances = w.manager.m_clipInstances ++ [self] ∧
        w'.manager.m_systemManagedClipInstances =
          (if userManagedInstance = none then w.manager.m_systemManagedClipInstances ++ [self]
           else w.manager.m_systemManagedClipInstances) ∧
        (∃ o, w'.instanceObjects self = some o ∧
          (o.m_systemManaged = true ↔ userManagedInstance = none)) ∧
        (∀ q, q ≠ self → w'.instanceObjects q = w.instanceObjects q) ∧
        (∀ slot, userManagedInstance = some slot → w'.callerSlots slot = some self))) := by
  refine ⟨⟨rfl, rfl⟩, ?_⟩
  intro hc hw hclip hg hnew
  have hfresh := fresh_not_registered w hc self hnew
  have hfresh' : self ∉ w.manager.m_systemManagedClipInstances := by
    rw [hc.system_managed]
    exact fun h => hfresh (List.mem_of_mem_filter h)
  have post : ∀ w', InstanceAdded w w' self (if userManagedInstance.isSome then false else true) →
      w'.manager.m_clipInstances = w.manager.m_clipInstances ++ [self] ∧
        w'.manager.m_systemManagedClipInstances =
          (if userManagedInstance = none then w.manager.m_systemManagedClipInstances ++ [self]
           else w.manager.m_systemManagedClipInstances) ∧
        (∃ o, w'.instanceObjects self = some o ∧
          (o.m_systemManaged = true ↔ userManagedInstance = none)) ∧
        (∀ q, q ≠ self → w'.instanceObjects q = w.instanceObjects q) := by
    intro w' ha
    obtain ⟨o, ho, hflag⟩ := ha.created
    refine ⟨ha.instances, ?_, ⟨o, ho, ?_⟩, ha.others⟩
    · rw [ha.managed]; cases userManagedInstance <;> simp
    · rw [hflag]; cases userManagedInstance <;> simp
  refine ⟨hfresh, hfresh', ?_, ?_⟩
  · obtain ⟨w1, h1⟩ := newAudioClipInstance_ok w hc hw self clip group hg hclip
      (if userManagedInstance.isSome then false else true) ⟨.zero, .zero, .zero⟩ .zero resultOk
      channel
    have hplay : ∃ w', play2D w (some clip) group userManagedInstance self resultOk channel =
        .ok w' := by
      cases userManagedInstance <;> simp at h1 <;> simp [play2D, h1]
    obtain ⟨w', hw'⟩ := hplay
    obtain ⟨ha, hslot⟩ := play2D_added w w' clip group userManagedInstance self resultOk channel hw'
    obtain ⟨p1, p2, p3, p4⟩ := post w' ha
    exact ⟨w', hw', p1, p2, p3, p4, hslot⟩
  · obtain ⟨w1, h1⟩ := newAudioClipInstance_ok w hc hw self clip group hg hclip
      (if userManagedInstance.isSome then false else true) position minDistance resultOk channel
    have hplay : ∃ w', play3D w (some clip) group position minDistance userManagedInstance self
        resultOk channel = .ok w' := by
      cases userManagedInstance <;> simp at h1 <;> simp [play3D, h1]
    obtain ⟨w', hw'⟩ := hplay
    obtain ⟨ha, hslot⟩ := play3D_added w w' clip group position minDistance userManagedInstance
      self resultOk channel hw'
    obtain ⟨p1, p2, p3, p4⟩ := post w' ha
    exact ⟨w', hw', p1, p2, p3, p4, hslot⟩

/-- C1, in the world reached by `play2D( clip, 0, &out )` and `out->setVolume( 0.5f )`:
`play3D` on group 1 with an out-variable at 901 makes the caller-managed instance 21. -/
theorem play_registers_instance_witness :
    Consistent worldAfterSetVolume ∧ Working worldAfterSetVolume ∧
    (worldAfterSetVolume.clipObjects 10).isSome = true ∧
    (0 ≤ (1 : Int) ∧ (1 : Int) < worldAfterSetVolume.manager.m_numGroups) ∧
    worldAfterSetVolume.instanceObjects 21 = none ∧
    EngineCall.Channel_setVolume 7 (.finite (1 / 2)) ∈ worldAfterSetVolume.engine ∧
    ∃ w', play3D worldAfterSetVolume (some 10) 1 ⟨.finite 1, .finite 2, .finite 3⟩ (.finite 5)
        (some 901) 21 true (some 8) = .ok w' ∧
      w'.manager.m_clipInstances = [20, 21] ∧ w'.manager.m_systemManagedClipInstances = [] ∧
      w'.callerSlots 901 = some 21 := by
  have hc := reachable_consistent worldAfterSetVolume worldAfterSetVolume_reachable
  obtain ⟨_, _, _, w', h1, h2, h3, _, _, h6⟩ :=
    (play_registers_instance worldAfterSetVolume 10 1 ⟨.finite 1, .finite 2, .finite 3⟩
      (.finite 5) (some 901) 21 true (some 8)).2
      hc worldAfterSetVolume_working rfl (by decide) rfl
  exact ⟨hc, worldAfterSetVolume_working, rfl, by decide, rfl, by with_unfolding_all decide,
    w', h1,
    h2.trans rfl, h3.trans rfl, h6 901 rfl⟩

/-- C2: in every consistent world with an engine present, one `update` call returns, and it
deletes at most one system-managed instance.  If no system-managed instance is finished, both sets stay as they
were.  Otherwise the first finished one in registration order, `p` (it is finished and every
system-managed instance registered before it is still playing), leaves both sets and nothing
else changes in them: each set is the old one with `p` taken out, order kept, and is one
shorter. -/
theorem update_reclaims_first_finished (w : World) (frameTime : Float32)
    (position forward up : Vector3) (listenerOk tickOk : Bool) (playing : Ptr → Bool)
    (hc : Consistent w) (hsys : w.manager.m_system.isSome = true) :
    ∃ w', update w frameTime position forward up listenerOk tickOk playing = .ok w' ∧
      match w.manager.m_systemManagedClipInstances.find? (finished w playing) with
      | none =>
        w'.manager.m_systemManagedClipInstances = w.manager.m_systemManagedClipInstances ∧
        w'.manager.m_clipInstances = w.manager.m_clipInstances
      | some p =>
        p ∈ w.manager.m_systemManagedClipInstances ∧ p ∈ w.manager.m_clipInstances ∧
        finished w playing p = true ∧
        (∃ earlier later, w.manager.m_systemManagedClipInstances = earlier ++ p :: later ∧
          ∀ q ∈ earlier, finished w playing q = false) ∧
        w'.manager.m_systemManagedClipInstances =
          w.manager.m_systemManagedClipInstances.erase p ∧
        w'.manager.m_clipInstances = w.manager.m_clipInstances.erase p ∧
        w'.manager.m_systemManagedClipInstances =
          w.manager.m_systemManagedClipInstances.filter (fun q => q ≠ p) ∧
        w'.manager.m_clipInstances = w.manager.m_clipInstances.filter (fun q => q ≠ p) ∧
        p ∉ w'.manager.m_systemManagedClipInstances ∧ p ∉ w'.manager.m_clipInstances ∧
        w'.manager.m_systemManagedClipInstances.length + 1 =
          w.manager.m_systemManagedClipInstances.length ∧
        w'.manager.m_clipInstances.length + 1 = w.manager.m_clipInstances.length := by
  obtain ⟨sys, hs⟩ := Option.isSome_iff_exists.1 hsys
  obtain ⟨d, w', heq, _, _, _, _, hsets⟩ :=
    update_sets w hc sys hs frameTime position forward up listenerOk tickOk playing
  refine ⟨w', heq, ?_⟩
  cases hfind : w.manager.m_systemManagedClipInstances.find? (finished w playing) with
  | none =>
    rw [hfind] at hsets
    exact hsets
  | some p =>
    rw [hfind] at hsets
    obtain ⟨h1, h2⟩ := hsets
    have hp : p ∈ w.manager.m_systemManagedClipInstances := List.mem_of_find?_eq_some hfind
    have hnd := hc.instances_nodup
    have hnds : w.manager.m_systemManagedClipInstances.Nodup := by
      rw [hc.system_managed]; exact hnd.filter _
    have hpa : p ∈ w.manager.m_clipInstances := by
      rw [hc.system_managed] at hp; exact List.mem_of_mem_filter hp
    obtain ⟨hfin, earlier, later, hsplit, hearlier⟩ := List.find?_eq_some.1 hfind
    refine ⟨hp, hpa, hfin, ⟨earlier, later, hsplit, fun q hq => by simpa using hearlier q hq⟩,
      h1, h2, ?_, ?_, ?_, ?_, ?_, ?_⟩
    · rw [h1, erase_eq_filter_ne _ p hnds]
    · rw [h2, erase_eq_filter_ne _ p hnd]
    · rw [h1]; exact fun h => ((hnds.mem_erase_iff).1 h).1 rfl
    · rw [h2]; exact fun h => ((hnd.mem_erase_iff).1 h).1 rfl
    · rw [h1, List.length_erase_of_mem hp]
      have := List.length_pos_of_mem hp
      omega
    · rw [h2, List.length_erase_of_mem hpa]
      have := List.length_pos_of_mem hpa
      omega

/-- C2, at a manager whose only instance is the system-managed instance 20, with the engine
reporting every channel inactive: one `update` empties both sets. -/
theorem update_reclaims_first_finished_witness :
    Consistent world2 ∧ world2.manager.m_system.isSome = true ∧
    world2.manager.m_systemManagedClipInstances = [20] ∧ world2.manager.m_clipInstances = [20] ∧
    ∃ w', update world2 frameTime16ms origin axisZ axisY true true (fun _ => false) = .ok w' ∧
      w'.manager.m_systemManagedClipInstances = [] ∧ w'.manager.m_clipInstances = [] := by
  have hc := reachable_consistent world2 world2_reachable
  obtain ⟨w', h1, h2⟩ :=
    update_reclaims_first_finished world2 frameTime16ms origin axisZ axisY true true
      (fun _ => false) hc rfl
  have hfind : world2.manager.m_systemManagedClipInstances.find? (finished world2 (fun _ => false))
      = some 20 := rfl
  rw [hfind] at h2
  exact ⟨hc, rfl, rfl, rfl, w', h1, h2.2.2.2.2.1.trans rfl, h2.2.2.2.2.2.1.trans rfl⟩

/-- C3, as amended: in every world, `setGroupVolume( g, v )` with `g` outside
`[0, numGroups)` makes no engine call, logs exactly one Error and changes nothing in the
manager or on the heap; with `g` inside the range, on a manager whose engine was created and
initialised, it makes one engine call, setting the volume on the handle of group `g`, and
logs nothing. -/
theorem setGroupVolume_checks_range (w : World) (group : Int) (volume : Float32) :
    (¬ (0 ≤ group ∧ group < w.manager.m_numGroups) →
      ∃ w', setGroupVolume w group volume = .ok w' ∧
        w'.engine = w.engine ∧
        w'.log = w.log ++
          [⟨.Error, "setGroupVolume - group out of range: %d\n", .int group⟩] ∧
        w'.manager = w.manager ∧ w'.clipObjects = w.clipObjects ∧
        w'.instanceObjects = w.instanceObjects ∧ w'.callerSlots = w.callerSlots) ∧
    (Working w → 0 ≤ group ∧ group < w.manager.m_numGroups →
      ∃ w' gs g, setGroupVolume w group volume = .ok w' ∧
        w.manager.m_channelGroups = some gs ∧ gs[group.toNat]? = some g ∧
        w'.engine = w.engine ++ [.ChannelGroup_setVolume g volume] ∧
        w'.log = w.log ∧
        w'.manager = w.manager ∧ w'.clipObjects = w.clipObjects ∧
        w'.instanceObjects = w.instanceObjects ∧ w'.callerSlots = w.callerSlots) := by
  constructor
  · intro hg
    exact ⟨w.print .Error "setGroupVolume - group out of range: %d\n" (.int group),
      by simp only [setGroupVolume, if_neg hg], rfl, rfl, rfl, rfl, rfl, rfl⟩
  · intro hw hg
    obtain ⟨gs, g, hgs, hget, hgrp⟩ := getGroup_ok w hw group hg
    exact ⟨w.call (.ChannelGroup_setVolume g volume), gs, g,
      by simp only [setGroupVolume, if_pos hg, hgrp], hgs, hget, rfl, rfl, rfl, rfl, rfl, rfl⟩

/-- C3, at a manager with two groups: group 1 is set on its handle 101, group 2 is refused. -/
theorem setGroupVolume_checks_range_witness :
    Working world0 ∧ (0 ≤ (1 : Int) ∧ (1 : Int) < world0.manager.m_numGroups) ∧
    (∃ w' gs g, setGroupVolume world0 1 (.finite (1 / 2)) = .ok w' ∧
        world0.manager.m_channelGroups = some gs ∧ gs[(1 : Int).toNat]? = some g ∧
        w'.engine = world0.engine ++ [.ChannelGroup_setVolume g (.finite (1 / 2))] ∧
        w'.log = world0.log ∧
        w'.manager = world0.manager ∧ w'.clipObjects = world0.clipObjects ∧
        w'.instanceObjects = world0.instanceObjects ∧ w'.callerSlots = world0.callerSlots) ∧
    ¬ (0 ≤ (2 : Int) ∧ (2 : Int) < world0.manager.m_numGroups) ∧
    (∃ w', setGroupVolume world0 2 (.finite (1 / 2)) = .ok w' ∧
        w'.engine = world0.engine ∧
        w'.log = world0.log ++
          [⟨.Error, "setGroupVolume - group out of range: %d\n", .int 2⟩] ∧
        w'.manager = world0.manager ∧ w'.clipObjects = world0.clipObjects ∧
        w'.instanceObjects = world0.instanceObjects ∧ w'.callerSlots = world0.callerSlots) :=
  ⟨world0_working, by decide,
    (setGroupVolume_checks_range world0 1 (.finite (1 / 2))).2 world0_working (by decide),
    by decide, (setGroupVolume_checks_range world0 2 (.finite (1 / 2))).1 (by decide)⟩

/-- C3 as stated fails on a manager whose engine could not be created: the manager was asked
for one group, so group 0 is inside `[0, numGroups)`, but `m_channelGroups` is null and
`setGroupVolume( 0, 1.0f )` dereferences it; no volume is set and the call does not return.
The same holds when `init` failed. -/
theorem setGroupVolume_null_groups_counterexample :
    Reachable worldNoSystem ∧
    (0 ≤ (0 : Int) ∧ (0 : Int) < worldNoSystem.manager.m_numGroups) ∧
    worldNoSystem.manager.m_channelGroups = none ∧
    setGroupVolume worldNoSystem 0 .one = .error .nullDereference ∧
    (¬ ∃ w', setGroupVolume worldNoSystem 0 .one = .ok w') ∧
    (0 ≤ (0 : Int) ∧ (0 : Int) < worldNoInit.manager.m_numGroups) ∧
    setGroupVolume worldNoInit 0 .one = .error .nullDereference := by
  refine ⟨worldNoSystem_reachable, by decide, rfl, rfl, ?_, by decide, rfl⟩
  rintro ⟨w', h⟩
  have h' : (Except.error Fault.nullDereference : Except Fault World) = .ok w' := h
  cases h'

/-- C4, the code at a manager with leaks.  With one caller-managed instance and one clip alive
the destructor empties every set and warns about the clip.  With two clips alive it deletes
the first only: `delete m_clips[ 0 ]` erases entry 0, the second clip moves to index 0, and
the loop goes on at index 1; clip 11 stays in `m_clips` and on the heap, its sound is never
released, and no Warning names it.  With two caller-managed instances alive, instance 21
stays in `m_clipInstances` in the same way. -/
theorem destroy_skips_every_second_leak :
    (∃ w', destroy worldOneEach true true = .ok w' ∧
      w'.manager.m_systemManagedClipInstances = [] ∧ w'.manager.m_clipInstances = [] ∧
      w'.manager.m_clips = [] ∧
      w'.log.filter (fun l => l.level = .Warning) =
        [⟨.Warning, "Failed to free clip %s\n", .str "a.wav"⟩]) ∧
    (Reachable worldTwoClips ∧ worldTwoClips.manager.m_clips = [10, 11] ∧
      ∃ w', destroy worldTwoClips true true = .ok w' ∧
        w'.manager.m_clips = [11] ∧ (w'.clipObjects 11).isSome = true ∧
        EngineCall.Sound_release 51 ∉ w'.engine ∧
        w'.log.filter (fun l => l.level = .Warning) =
          [⟨.Warning, "Failed to free clip %s\n", .str "a.wav"⟩]) ∧
    (Reachable worldTwoInstances ∧ worldTwoInstances.manager.m_clipInstances = [20, 21] ∧
      ∃ w', destroy worldTwoInstances true true = .ok w' ∧
        w'.manager.m_clipInstances = [21] ∧ (w'.instanceObjects 21).isSome = true ∧
        EngineCall.Channel_stop 8 ∉ w'.engine) := by
  refine ⟨⟨_, rfl, rfl, rfl, rfl, by decide⟩,
    ⟨worldTwoClips_reachable, rfl, _, rfl, rfl, rfl, by decide, by decide⟩,
    ⟨worldTwoInstances_reachable, rfl, _, rfl, rfl, rfl, by decide⟩⟩

/-- C5, the code at a group index out of range: on a working manager with two groups and a
live clip, `play2D` and `play3D` with group 2 or group -1 read `m_channelGroups` outside the
array, which is undefined; they return no "no-op" world and log no Error.  The sibling
`setGroupVolume` checks the same index and logs the Error. -/
theorem play_reads_group_out_of_range :
    Reachable world1 ∧ Working world1 ∧ world1.manager.m_numGroups = 2 ∧
    (world1.clipObjects 10).isSome = true ∧
    play2D world1 (some 10) 2 none 20 true (some 7) = .error .outOfBounds ∧
    play3D world1 (some 10) 2 ⟨.finite 1, .finite 2, .finite 3⟩ (.finite 5) none 20 true
      (some 7) = .error .outOfBounds ∧
    play2D world1 (some 10) (-1) (some 900) 20 true (some 7) = .error .outOfBounds ∧
    (∃ w', setGroupVolume world1 2 .one = .ok w' ∧
      w'.log = world1.log ++ [⟨.Error, "setGroupVolume - group out of range: %d\n", .int 2⟩]) :=
  ⟨world1_reachable, world1_working, rfl, rfl, rfl, rfl, rfl, _, rfl, rfl⟩

/-- C6, the code after a failed start.  When `System_Create` fails, `m_system` and
`m_channelGroups` stay null: `update` is guarded and returns the world unchanged, but
`setGroupVolume` with a group in range, `createAudioClip` and `play2D`/`play3D` with a
non-null clip have no guard and dereference a null pointer.  When `init` fails, `m_system`
is left non-null, so the guard of `update` passes and `update` calls the engine. -/
theorem degraded_manager_unguarded :
    worldNoSystem.manager.m_system = none ∧ worldNoSystem.manager.m_channelGroups = none ∧
    worldNoSystem.manager.m_numGroups = 1 ∧
    (∀ frameTime position forward up listenerOk tickOk playing,
      update worldNoSystem frameTime position forward up listenerOk tickOk playing =
        .ok worldNoSystem) ∧
    setGroupVolume worldNoSystem 0 .one = .error .nullDereference ∧
    createAudioClip worldNoSystem "a.wav" 0 true (some 50) 10 = .error .nullDereference ∧
    play2D worldNoSystem (some 10) 0 none 20 true (some 7) = .error .nullDereference ∧
    play3D worldNoSystem (some 10) 0 ⟨.finite 1, .finite 2, .finite 3⟩ (.finite 5) none 20 true
      (some 7) = .error .nullDereference ∧
    worldNoInit.manager.m_system = some 1 ∧ worldNoInit.manager.m_channelGroups = none ∧
    setGroupVolume worldNoInit 0 .one = .error .nullDereference ∧
    (∃ w', update worldNoInit .one origin axisZ axisY true true (fun _ => false) =
        .ok w' ∧ w'.engine = worldNoInit.engine ++ [.System_update]) ∧
    (∃ w' r, createAudioClip worldNoInit "a.wav" 0 false none 10 = .ok (w', r) ∧
      w'.engine = worldNoInit.engine ++ [.createSound "a.wav" FMOD_2D]) :=
  ⟨rfl, rfl, rfl, fun _ _ _ _ _ _ _ => rfl, rfl, rfl, rfl, rfl, rfl, rfl, rfl,
    ⟨worldNoInit.call .System_update,
      by simp [update, show worldNoInit.manager.m_system = some 1 from rfl,
        show worldNoInit.manager.m_systemManagedClipInstances = [] from rfl, World.call,
        reclaimLoop, Float32.lt, Float32.one, Float32.zero, Float32.toRat],
      rfl⟩,
    ⟨_, _, rfl, rfl⟩⟩

/-- C7, as amended: in every consistent world with an engine present, for every `float`
`frameTime` with `0 < frameTime < 1`, `update` returns, its first engine call is
`set3DListenerAttributes` on listener 0 with the given position, the velocity
`(position - m_lastPosition) / frameTime` taken component by component in `float`
arithmetic (the difference rounded to binary32, then the quotient rounded to binary32), and
the given forward and up vectors; the tick follows; and `m_lastPosition` ends as the given
position.  This holds for either answer `listenerOk` of the engine to the listener call. -/
theorem update_forwards_listener_velocity (w : World) (frameTime : Float32)
    (position forward up : Vector3) (listenerOk tickOk : Bool) (playing : Ptr → Bool)
    (hc : Consistent w) (hsys : w.manager.m_system.isSome = true)
    (hft : Float32.lt .zero frameTime = true ∧ Float32.lt frameTime .one = true) :
    ∃ w' rest, update w frameTime position forward up listenerOk tickOk playing = .ok w' ∧
      w'.engine = w.engine ++
        (.set3DListenerAttributes 0 ⟨position.x, position.y, position.z⟩
            ⟨Float32.div (Float32.sub position.x w.manager.m_lastPosition.x) frameTime,
             Float32.div (Float32.sub position.y w.manager.m_lastPosition.y) frameTime,
             Float32.div (Float32.sub position.z w.manager.m_lastPosition.z) frameTime⟩
            ⟨forward.x, forward.y, forward.z⟩ ⟨up.x, up.y, up.z⟩ ::
          .System_update :: rest) ∧
      (∀ c ∈ rest, isReclaimCall c = true) ∧
      w'.manager.m_lastPosition = ⟨position.x, position.y, position.z⟩ := by
  obtain ⟨sys, hs⟩ := Option.isSome_iff_exists.1 hsys
  obtain ⟨d, w', heq, hd, heng, hlast, _, _⟩ :=
    update_sets w hc sys hs frameTime position forward up listenerOk tickOk playing
  refine ⟨w', d, heq, ?_, hd, ?_⟩
  · rw [heng]
    cases listenerOk <;> cases tickOk <;>
      simp [beforeReclaim, hft.1, hft.2, World.call, World.print, Vector3.toFMOD]
  · rw [hlast]
    cases listenerOk <;> cases tickOk <;>
      simp [beforeReclaim, hft.1, hft.2, World.call, World.print, Vector3.toFMOD]

/-- C7 as amended, on the input of the specification: `frameTime` 0.016f, last position
(0,0,0) and listener position (1,0,0) give the velocity (16383999 / 262144, 0, 0), about
62.499996, and last position (1,0,0), here with the engine refusing the listener
attributes. -/
theorem update_forwards_listener_velocity_witness :
    Consistent world0 ∧ world0.manager.m_system.isSome = true ∧
    (Float32.lt .zero frameTime16ms = true ∧ Float32.lt frameTime16ms .one = true) ∧
    Float32.ofRat 0.016 = frameTime16ms ∧ world0.manager.m_lastPosition = origin.toFMOD ∧
    ∃ w' rest, update world0 frameTime16ms axisX axisZ axisY false true (fun _ => true) =
        .ok w' ∧
      w'.engine = world0.engine ++
        (.set3DListenerAttributes 0 ⟨.one, .zero, .zero⟩
            ⟨.finite (16383999 / 262144), .zero, .zero⟩ ⟨.zero, .zero, .one⟩
            ⟨.zero, .one, .zero⟩ :: .System_update :: rest) ∧
      w'.manager.m_lastPosition = ⟨.one, .zero, .zero⟩ := by
  have hc := reachable_consistent world0 world0_reachable
  have hft := And.intro Float32.zero_lt_16ms Float32.lt_one_16ms
  obtain ⟨w', rest, h1, h2, _, h4⟩ :=
    update_forwards_listener_velocity world0 frameTime16ms axisX axisZ axisY false true
      (fun _ => true) hc rfl hft
  have hlast : world0.manager.m_lastPosition = ⟨.zero, .zero, .zero⟩ := rfl
  rw [hlast] at h2
  simp only [axisX, axisY, axisZ, Float32.sub_one_zero, Float32.sub_zero_zero,
    Float32.div_one_16ms, Float32.div_zero_16ms] at h2 h4
  exact ⟨hc, rfl, hft, Float32.ofRat_16ms, rfl, w', rest, h1, h2, h4⟩

/-- C7 as stated fails twice.  On the input of the specification the code, which divides in
`float`, does not forward 62.5: `0.016f` is 8589935 / 2 ^ 29, and the quotient `1.0f / 0.016f`
rounds to 16383999 / 2 ^ 18, which is neither 62.5 nor the exact quotient.  And on a manager
whose engine could not be created `update` forwards nothing and leaves `m_lastPosition`. -/
theorem update_velocity_counterexample :
    Float32.ofRat 0.016 = .finite (8589935 / 536870912) ∧
    (8589935 / 536870912 : ℚ) ≠ 0.016 ∧
    (∃ w', update world0 (Float32.ofRat 0.016) axisX axisZ axisY true true (fun _ => true) =
        .ok w' ∧
      w'.engine = world0.engine ++
        [.set3DListenerAttributes 0 ⟨.one, .zero, .zero⟩
            ⟨.finite (16383999 / 262144), .zero, .zero⟩ ⟨.zero, .zero, .one⟩
            ⟨.zero, .one, .zero⟩, .System_update]) ∧
    (16383999 / 262144 : ℚ) ≠ 62.5 ∧
    (16383999 / 262144 : ℚ) ≠ (1 - 0) / (8589935 / 536870912) ∧
    (update worldNoSystem frameTime16ms axisX axisZ axisY true true (fun _ => true) =
        .ok worldNoSystem ∧
      worldNoSystem.manager.m_lastPosition = ⟨.zero, .zero, .zero⟩ ∧
      worldNoSystem.engine = [.System_Create]) := by
  refine ⟨Float32.ofRat_16ms, by norm_num, ?_, by norm_num, by norm_num, rfl, rfl, rfl⟩
  rw [Float32.ofRat_16ms]
  refine ⟨beforeReclaim world0 frameTime16ms axisX axisZ axisY true true, ?_, ?_⟩
  · rw [update_eq_reclaimLoop world0 1 rfl]
    rw [(beforeReclaim_same world0 frameTime16ms axisX axisZ axisY true true).2.2.1]
    rfl
  · have hlast : world0.manager.m_lastPosition = ⟨.zero, .zero, .zero⟩ := rfl
    simp [beforeReclaim, Float32.zero_lt_16ms, Float32.lt_one_16ms, World.call, hlast, axisX,
      axisY, axisZ, Vector3.toFMOD, Float32.sub_one_zero, Float32.sub_zero_zero,
      Float32.div_one_16ms, Float32.div_zero_16ms]

/-- C8: in every consistent world with an engine present, for `frameTime ≤ 0`,
`frameTime ≥ 1` (and for a NaN), `update` returns; the engine calls it makes are the tick,
once, followed only by calls of the reclamation loop, so there is no
`set3DListenerAttributes`; `m_lastPosition` is unchanged; and the reclamation loop runs as on
any other frame, deleting the first finished system-managed instance if there is one. -/
theorem update_skips_listener_outside_interval (w : World) (frameTime : Float32)
    (position forward up : Vector3) (listenerOk tickOk : Bool) (playing : Ptr → Bool)
    (hc : Consistent w) (hsys : w.manager.m_system.isSome = true)
    (hft : Float32.le frameTime .zero = true ∨ Float32.le .one frameTime = true ∨
      frameTime = .nan) :
    ∃ w' rest, update w frameTime position forward up listenerOk tickOk playing = .ok w' ∧
      w'.engine = w.engine ++ (.System_update :: rest) ∧
      (∀ c ∈ rest, isReclaimCall c = true) ∧
      (EngineCall.System_update :: rest).count .System_update = 1 ∧
      (∀ l p v f u, EngineCall.set3DListenerAttributes l p v f u ∉
        EngineCall.System_update :: rest) ∧
      w'.manager.m_lastPosition = w.manager.m_lastPosition ∧
      (match w.manager.m_systemManagedClipInstances.find? (finished w playing) with
       | none =>
         w'.manager.m_systemManagedClipInstances = w.manager.m_systemManagedClipInstances ∧
         w'.manager.m_clipInstances = w.manager.m_clipInstances
       | some p =>
         w'.manager.m_systemManagedClipInstances =
           w.manager.m_systemManagedClipInstances.erase p ∧
         w'.manager.m_clipInstances = w.manager.m_clipInstances.erase p) := by
  obtain ⟨sys, hs⟩ := Option.isSome_iff_exists.1 hsys
  obtain ⟨d, w', heq, hd, heng, hlast, _, hsets⟩ :=
    update_sets w hc sys hs frameTime position forward up listenerOk tickOk playing
  have hno : (Float32.lt .zero frameTime && Float32.lt frameTime .one) = false := by
    rcases hft with h | h | h
    · rw [Float32.lt_eq_false_of_le _ _ h]; rfl
    · rw [Float32.lt_eq_false_of_le _ _ h]; simp
    · rw [h, Float32.lt_nan_right]; rfl
  have hnot : ∀ c ∈ d, c ≠ EngineCall.System_update := by
    intro c hcd he
    have := hd c hcd
    rw [he] at this
    cases this
  refine ⟨w', d, heq, ?_, hd, ?_, ?_, ?_, hsets⟩
  · rw [heng]
    cases tickOk <;> simp [beforeReclaim, hno, World.call, World.print]
  · rw [List.count_cons_self, List.count_eq_zero.2 (fun h => hnot _ h rfl)]
  · intro l p v f u hmem
    rcases List.mem_cons.1 hmem with h | h
    · cases h
    · have := hd _ h
      cases this
  · rw [hlast]
    cases tickOk <;> simp [beforeReclaim, hno, World.call, World.print]

/-- C8, at `frameTime = 1.0f` with the system-managed instance 20 finished: one tick, no
listener call, the last position stays (0,0,0), and the instance is reclaimed. -/
theorem update_skips_listener_outside_interval_witness :
    Consistent world2 ∧ world2.manager.m_system.isSome = true ∧
    Float32.le .one .one = true ∧
    ∃ w' rest, update world2 .one axisX axisZ axisY true true (fun _ => false) = .ok w' ∧
      w'.engine = world2.engine ++ (.System_update :: rest) ∧
      (EngineCall.System_update :: rest).count .System_update = 1 ∧
      (∀ l p v f u, EngineCall.set3DListenerAttributes l p v f u ∉
        EngineCall.System_update :: rest) ∧
      w'.manager.m_lastPosition = ⟨.zero, .zero, .zero⟩ ∧
      w'.manager.m_systemManagedClipInstances = [] ∧ w'.manager.m_clipInstances = [] := by
  have hc := reachable_consistent world2 world2_reachable
  have hle : Float32.le .one .one = true := by with_unfolding_all rfl
  obtain ⟨w', rest, h1, h2, _, h4, h5, h6, h7⟩ :=
    update_skips_listener_outside_interval world2 .one axisX axisZ axisY true true
      (fun _ => false) hc rfl (Or.inr (Or.inl hle))
  have hfind : world2.manager.m_systemManagedClipInstances.find? (finished world2 (fun _ => false))
      = some 20 := rfl
  rw [hfind] at h7
  exact ⟨hc, rfl, hle, w', rest, h1, h2, h4, h5, h6.trans rfl, h7.1.trans rfl, h7.2.trans rfl⟩

/-- C10: at the end of every run (manager created; then any calls of `play2D`, `play3D`,
`update`, `setGroupVolume`, `createAudioClip`, and deletions of clips and instances) the
sets are consistent: `m_systemManagedClipInstances` is a sub-sequence of `m_clipInstances`,
neither holds a duplicate, `m_clipInstances` holds exactly the live instances, and
`m_systemManagedClipInstances` holds exactly the live instances whose creating call had a null
`userManagedInstance`.  Deleting any live instance `p` returns, takes `p` and nothing else out
of each set (order kept), frees `p` only, and ends in a run again. -/
theorem reachable_sets_consistent (w : World) (created : Ptr → Option Bool)
    (hr : History w created) :
    List.Sublist w.manager.m_systemManagedClipInstances w.manager.m_clipInstances ∧
    w.manager.m_clipInstances.Nodup ∧ w.manager.m_systemManagedClipInstances.Nodup ∧
    (∀ p, p ∈ w.manager.m_clipInstances ↔ (w.instanceObjects p).isSome = true) ∧
    (∀ p, (created p).isSome = true ↔ (w.instanceObjects p).isSome = true) ∧
    (∀ p, p ∈ w.manager.m_systemManagedClipInstances ↔ created p = some true) ∧
    (∀ p, (w.instanceObjects p).isSome = true →
      ∃ w', deleteAudioClipInstance w p = .ok w' ∧
        w'.manager.m_clipInstances = w.manager.m_clipInstances.filter (fun q => q ≠ p) ∧
        w'.manager.m_systemManagedClipInstances =
          w.manager.m_systemManagedClipInstances.filter (fun q => q ≠ p) ∧
        p ∉ w'.manager.m_clipInstances ∧ p ∉ w'.manager.m_systemManagedClipInstances ∧
        (∀ q, q ≠ p → (q ∈ w'.manager.m_clipInstances ↔ q ∈ w.manager.m_clipInstances) ∧
          (q ∈ w'.manager.m_systemManagedClipInstances ↔
            q ∈ w.manager.m_systemManagedClipInstances)) ∧
        w'.instanceObjects p = none ∧
        (∀ q, q ≠ p → w'.instanceObjects q = w.instanceObjects q) ∧
        History w' (fun q => if (w'.instanceObjects q).isSome then created q else none)) := by
  have hc := history_consistent w created hr
  have hrec := history_record w created hr
  have hnd := hc.instances_nodup
  have hnds : w.manager.m_systemManagedClipInstances.Nodup := by
    rw [hc.system_managed]; exact hnd.filter _
  refine ⟨?_, hnd, hnds, hc.instances_live, ?_, ?_, ?_⟩
  · rw [hc.system_managed]; exact List.filter_sublist _
  · intro p; rw [hrec p]; simp
  · intro p
    rw [hc.system_managed, List.mem_filter, hc.instances_live p, hrec p]
    cases ho : w.instanceObjects p with
    | none => simp [managedBySystem, ho]
    | some o => simp [managedBySystem, ho]
  · intro p hlive
    obtain ⟨o, ho⟩ := Option.isSome_iff_exists.1 hlive
    have hdel := deleteAudioClipInstance_eq w hc p o ho
    have h1 : (afterDeleteInstance w p o).manager.m_clipInstances =
        w.manager.m_clipInstances.filter (fun q => q ≠ p) :=
      erase_eq_filter_ne _ p hnd
    have h2 : (afterDeleteInstance w p o).manager.m_systemManagedClipInstances =
        w.manager.m_systemManagedClipInstances.filter (fun q => q ≠ p) :=
      erase_eq_filter_ne _ p hnds
    refine ⟨_, hdel, h1, h2, ?_, ?_, ?_, ?_, ?_, History.deleteAudioClipInstance p hr hdel⟩
    · rw [h1]; simp
    · rw [h2]; simp
    · intro q hq
      rw [h1, h2]
      simp [List.mem_filter, hq]
    · simp [afterDeleteInstance]
    · intro q hq
      simp [afterDeleteInstance, hq]

/-- C10, after `play2D( clip, 0, nullptr )` made the system-managed instance 20: it is in
both sets, recorded as created with a null out-pointer, and deleting it empties both sets. -/
theorem reachable_sets_consistent_witness :
    ∃ created, History world2 created ∧ created 20 = some true ∧
      20 ∈ world2.manager.m_systemManagedClipInstances ∧ 20 ∈ world2.manager.m_clipInstances ∧
      ∃ w', deleteAudioClipInstance world2 20 = .ok w' ∧
        w'.manager.m_clipInstances = [] ∧ w'.manager.m_systemManagedClipInstances = [] := by
  obtain ⟨_, _, _, h4, _, h6, h7⟩ := reachable_sets_consistent world2 _ world2_history
  obtain ⟨w', hd, ha, hs, _⟩ := h7 20 rfl
  exact ⟨_, world2_history, rfl, (h6 20).2 rfl, (h4 20).2 rfl, w', hd, ha.trans rfl,
    hs.trans rfl⟩

end AudioAPI
